import Mathlib

set_option maxRecDepth 8192
set_option exponentiation.threshold 1100

/-!
Verification development for the live-stream resolution and viewer-extraction
core of the calypso-land repository.

The definitions below are shallow embeddings of the JavaScript/TypeScript
source:

* `src/viewers/viewers.mjs` — the scraper: `fetchText`, `extractJsonFromHtml`,
  `extractNumberFromText`, `deepPickConcurrentViewers`, `isLiveNowFromHtml`,
  `resolveLiveVideoIdStrict`.
* `src/src/services/youtubeService.ts` — the client-side metadata service:
  the global cache with 30s TTL, the pending-request (single-flight) map,
  `fetchVideoData` / `fetchChannelData`, `getVideoMetadata` /
  `getChannelMetadata`, the sequential batch loops and `formatViewers`.

Strings are modelled as Lean `String` / `List Char`; JavaScript numbers that
arise here are always non-negative integers parsed from digit strings, so they
are modelled as `Nat`, with `Number.isFinite` modelled by the exact IEEE754
double overflow bound (a decimal value rounds to Infinity iff it is
≥ 2^1024 − 2^970).  Network effects are modelled by explicit oracles
(environments) mapping each request to its outcome, and the single-threaded
JS event loop by explicit small-step state transitions.
-/

/-! ### JavaScript character classes (regex `\d`, `\s`, `[.,\s]`, `[a-zA-Z0-9_-]`) -/

/-- Regex `\d`, i.e. the ASCII digits `0`–`9` (code points 48–57). -/
def isDigitChar (c : Char) : Bool := 48 ≤ c.toNat && c.toNat ≤ 57

/-- JavaScript regex `\s`: space, `\t`, `\n`, `\v`, `\f`, `\r`, NBSP, and the
Unicode space separators, line/paragraph separators and BOM. -/
def isJsSpaceChar (c : Char) : Bool :=
  c.toNat = 32 || c.toNat = 9 || c.toNat = 10 || c.toNat = 11 || c.toNat = 12 ||
  c.toNat = 13 || c.toNat = 160 || c.toNat = 5760 ||
  (8192 ≤ c.toNat && c.toNat ≤ 8202) ||
  c.toNat = 8232 || c.toNat = 8233 || c.toNat = 8239 || c.toNat = 8287 ||
  c.toNat = 12288 || c.toNat = 65279

/-- The separator class `[.,\s]` used by `extractNumberFromText`
(`.` is 46, `,` is 44). -/
def isSepChar (c : Char) : Bool := c.toNat = 46 || c.toNat = 44 || isJsSpaceChar c

/-- The video-id character class `[a-zA-Z0-9_-]` (`_` is 95, `-` is 45). -/
def isIdChar (c : Char) : Bool :=
  (65 ≤ c.toNat && c.toNat ≤ 90) || (97 ≤ c.toNat && c.toNat ≤ 122) ||
  (48 ≤ c.toNat && c.toNat ≤ 57) || c.toNat = 95 || c.toNat = 45

/-- JS `s.replace(/ /g, " ")` — normalize non-breaking spaces (160) to plain
spaces. -/
def normalizeNbsp (cs : List Char) : List Char :=
  cs.map (fun c => if c.toNat = 160 then ' ' else c)

/-! ### Substring search (JS `String.prototype.match` / regex `test` on literals) -/

/-- Does `needle` occur as a prefix of `hay`? -/
def startsWithL : List Char → List Char → Bool
  | [], _ => true
  | _ :: _, [] => false
  | a :: as, b :: bs => a = b && startsWithL as bs

/-- Does `needle` occur as a substring of `hay`? -/
def containsSubL (needle : List Char) (hay : List Char) : Bool :=
  if startsWithL needle hay then true
  else
    match hay with
    | [] => false
    | _ :: t => containsSubL needle t

/-- The live-viewer phrase test
`/(watching now|espectadores|mirando ahora|viendo ahora)/i`.
The `i` flag is modelled by canonicalizing both sides with ASCII `toUpper`
(the patterns are pure ASCII, and JS non-Unicode canonicalization keeps
non-ASCII input characters distinct from ASCII pattern characters). -/
def viewerPhraseTest (cs : List Char) : Bool :=
  let up := cs.map Char.toUpper
  containsSubL "WATCHING NOW".data up || containsSubL "ESPECTADORES".data up ||
  containsSubL "MIRANDO AHORA".data up || containsSubL "VIENDO AHORA".data up

/-! ### `extractNumberFromText` (viewers.mjs lines 47–55)

```js
function extractNumberFromText(s) {
  if (!s) return null;
  const normalized = s.replace(/ /g, " ");
  const match = normalized.match(/(\d{1,3}([.,\s]\d{3})*|\d+)/);
  if (!match) return null;
  const digits = match[0].replace(/[.,\s]/g, "");
  const n = Number(digits);
  return Number.isFinite(n) ? n : null;
}
```

The regex is matched with JS leftmost/first-alternative semantics: at the
first position holding a digit, alternative 1 (`\d{1,3}([.,\s]\d{3})*`)
always succeeds (greedy, nothing after it forces backtracking), so
alternative 2 (`\d+`) is never used. -/

/-- Greedily take up to `n` leading digits. -/
def takeDigitsUpTo : Nat → List Char → List Char × List Char
  | 0, cs => ([], cs)
  | _ + 1, [] => ([], [])
  | n + 1, c :: cs =>
    if isDigitChar c then
      let (d, r) := takeDigitsUpTo n cs
      (c :: d, r)
    else ([], c :: cs)

/-- Greedily consume `([.,\s]\d{3})*`. -/
def takeGroups (cs : List Char) : List Char × List Char :=
  match cs with
  | s :: d1 :: d2 :: d3 :: rest =>
    if isSepChar s && isDigitChar d1 && isDigitChar d2 && isDigitChar d3 then
      let (g, r) := takeGroups rest
      (s :: d1 :: d2 :: d3 :: g, r)
    else ([], cs)
  | _ => ([], cs)

/-- Match `(\d{1,3}([.,\s]\d{3})*|\d+)` anchored at the head of `cs`. -/
def matchNumeralAt (cs : List Char) : Option (List Char) :=
  match cs with
  | [] => none
  | c :: rest =>
    if isDigitChar c then
      let (ds, r1) := takeDigitsUpTo 2 rest
      let (gs, _) := takeGroups r1
      some (c :: (ds ++ gs))
    else none

/-- Leftmost match of the grouped-numeral regex in `cs`. -/
def findNumeralMatch : List Char → Option (List Char)
  | [] => none
  | c :: cs =>
    match matchNumeralAt (c :: cs) with
    | some m => some m
    | none => findNumeralMatch cs

/-- Decimal value of a digit string (`Number(digits)` for an all-digit
string, idealized as an exact integer). -/
def natOfDigits (ds : List Char) : Nat :=
  ds.foldl (fun a c => a * 10 + (c.toNat - 48)) 0

/-- JS `Number.isFinite` for a non-negative decimal integer: a value rounds to
`Infinity` exactly when it is ≥ 2^1024 − 2^970. -/
def jsNumberFinite (n : Nat) : Bool := n < 2 ^ 1024 - 2 ^ 970

/-- Embedding of `extractNumberFromText` (viewers.mjs 47–55). -/
def extractNumberFromText (s : String) : Option Nat :=
  if s = "" then none
  else
    match findNumeralMatch (normalizeNbsp s.data) with
    | none => none
    | some m =>
      let digits := m.filter (fun c => !(isSepChar c))
      let n := natOfDigits digits
      if jsNumberFinite n then some n else none

/-! ### Video-id patterns (viewers.mjs 120, 122, 137) -/

/-- Take exactly 11 leading `[a-zA-Z0-9_-]` characters, if present. -/
def take11Ids (cs : List Char) : Option (List Char) :=
  let pre := cs.take 11
  if pre.length = 11 && pre.all isIdChar then some pre else none

/-- Leftmost match of `/[?&]v=([a-zA-Z0-9_-]{11})/`, returning the captured
group. -/
def matchVParamL : List Char → Option (List Char)
  | [] => none
  | c :: cs =>
    match
      (if c = '?' || c = '&' then
        match cs with
        | 'v' :: '=' :: rest => take11Ids rest
        | _ => none
      else none) with
    | some m => some m
    | none => matchVParamL cs

/-- Leftmost match of `/watch\?v=([a-zA-Z0-9_-]{11})/`, returning the
captured group. -/
def matchWatchVL : List Char → Option (List Char)
  | [] => none
  | c :: cs =>
    match
      (if startsWithL "watch?v=".data (c :: cs) then take11Ids ((c :: cs).drop 8)
       else none) with
    | some m => some m
    | none => matchWatchVL cs

/-- Leftmost match of `/"videoId":"([a-zA-Z0-9_-]{11})"/`, returning the
captured group (note the closing quote is part of the pattern). -/
def matchVideoIdLitL : List Char → Option (List Char)
  | [] => none
  | c :: cs =>
    match
      (if startsWithL "\"videoId\":\"".data (c :: cs) then
        match take11Ids ((c :: cs).drop 11) with
        | some ids =>
          match (c :: cs).drop 22 with
          | '"' :: _ => some ids
          | _ => none
        | none => none
      else none) with
    | some m => some m
    | none => matchVideoIdLitL cs

/-! ### JSON values and `JSON.parse`

JavaScript objects reachable from `JSON.parse` results are modelled by the
`Json` type.  Object fields are kept in insertion order (as JS objects with
string keys do); a duplicate key in the source text overwrites the value in
place, as `JSON.parse` does.  JSON numbers are modelled exactly as an
unreduced fraction `num / den` (the IEEE754 rounding of a parsed literal is
idealized away; no claim below depends on a non-integral JSON number). -/

inductive Json where
  | jnull : Json
  | jbool : Bool → Json
  | jnum : Int → Nat → Json
  | jstr : String → Json
  | jarr : List Json → Json
  | jobj : List (String × Json) → Json
deriving Inhabited

/-- Property lookup on an object's field list (`o[k]`; `none` = `undefined`). -/
def lookupField (k : String) (fs : List (String × Json)) : Option Json :=
  (fs.find? (fun p => p.1 = k)).map (fun p => p.2)

/-- Insert-or-overwrite, keeping the first occurrence's position (JS object
assignment semantics, used for duplicate keys in `JSON.parse`). -/
def setField (fs : List (String × Json)) (k : String) (v : Json) :
    List (String × Json) :=
  match fs with
  | [] => [(k, v)]
  | (k0, v0) :: t => if k0 = k then (k0, v) :: t else (k0, v0) :: setField t k v

/-- JSON whitespace (space, tab, linefeed, carriage return). -/
def isJsonWs (c : Char) : Bool :=
  c.toNat = 32 || c.toNat = 9 || c.toNat = 10 || c.toNat = 13

def skipJsonWs (cs : List Char) : List Char := cs.dropWhile isJsonWs

def parseHexDigit (c : Char) : Option Nat :=
  if 48 ≤ c.toNat && c.toNat ≤ 57 then some (c.toNat - 48)
  else if 97 ≤ c.toNat && c.toNat ≤ 102 then some (c.toNat - 87)
  else if 65 ≤ c.toNat && c.toNat ≤ 70 then some (c.toNat - 55)
  else none

/-- Hex value of four hex digits, if all are valid. -/
def hex4 (h1 h2 h3 h4 : Char) : Option Nat :=
  match parseHexDigit h1, parseHexDigit h2, parseHexDigit h3, parseHexDigit h4 with
  | some a, some b, some c, some d => some (((a * 16 + b) * 16 + c) * 16 + d)
  | _, _, _, _ => none

/-- The character denoted by a `\uXXXX` escape value outside a surrogate
pair.  A lone surrogate (legal for `JSON.parse`, not representable as a Lean
`Char`) is idealized as U+FFFD. -/
def charOfEscape (n : Nat) : Char :=
  if 55296 ≤ n && n ≤ 57343 then Char.ofNat 65533 else Char.ofNat n

/-- Parse the body of a JSON string (after the opening quote), returning the
content and the input after the closing quote.  Raw control characters are
rejected, escapes (including surrogate-pair `\uXXXX\uXXXX`) are decoded. -/
def parseStrChars : List Char → Option (List Char × List Char)
  | [] => none
  | '"' :: rest => some ([], rest)
  | '\\' :: 'u' :: h1 :: h2 :: h3 :: h4 :: '\\' :: 'u' :: g1 :: g2 :: g3 :: g4 :: r5 =>
    match hex4 h1 h2 h3 h4, hex4 g1 g2 g3 g4 with
    | some n, some m =>
      if 55296 ≤ n && n ≤ 56319 && 56320 ≤ m && m ≤ 57343 then
        match parseStrChars r5 with
        | some (content, r6) =>
          some (Char.ofNat (65536 + (n - 55296) * 1024 + (m - 56320)) :: content, r6)
        | none => none
      else
        -- not a surrogate pair: decode the two escapes independently
        match parseStrChars r5 with
        | some (content, r6) => some (charOfEscape n :: charOfEscape m :: content, r6)
        | none => none
    | _, _ => none
  | '\\' :: 'u' :: h1 :: h2 :: h3 :: h4 :: rest =>
    match hex4 h1 h2 h3 h4 with
    | some n =>
      match parseStrChars rest with
      | some (content, r6) => some (charOfEscape n :: content, r6)
      | none => none
    | none => none
  | '\\' :: e :: rest =>
    match
      (if e = '"' then some '"'
       else if e = '\\' then some '\\'
       else if e = '/' then some '/'
       else if e = 'b' then some (Char.ofNat 8)
       else if e = 'f' then some (Char.ofNat 12)
       else if e = 'n' then some '\n'
       else if e = 'r' then some '\r'
       else if e = 't' then some '\t'
       else none) with
    | some ch =>
      match parseStrChars rest with
      | some (content, r5) => some (ch :: content, r5)
      | none => none
    | none => none
  | c :: rest =>
    if c.toNat < 32 then none
    else
      match parseStrChars rest with
      | some (content, r5) => some (c :: content, r5)
      | none => none

def takeDigitsAll : List Char → List Char × List Char
  | [] => ([], [])
  | c :: cs =>
    if isDigitChar c then
      let (d, r) := takeDigitsAll cs
      (c :: d, r)
    else ([], c :: cs)

/-- Parse a JSON number literal at the head of the input, as an exact
(unreduced) fraction. -/
def parseJsonNumber (cs : List Char) : Option ((Int × Nat) × List Char) :=
  let (neg, cs1) :=
    match cs with
    | '-' :: r => (true, r)
    | _ => (false, cs)
  match takeDigitsAll cs1 with
  | ([], _) => none
  | (intDs, cs2) =>
    -- leading-zero rule: `0` may only stand alone as the integer part
    if intDs.head? = some '0' && intDs.length > 1 then none
    else
      let (fracDs, cs3) :=
        match cs2 with
        | '.' :: r =>
          match takeDigitsAll r with
          | ([], _) => ([], '.' :: r)   -- a bare `.` makes the number end before it
          | (ds, r2) => (ds, r2)
        | _ => ([], cs2)
      -- a `.` not followed by digits is a syntax error in JSON
      if cs2.head? = some '.' && fracDs = [] then none
      else
        let expParse : Option (Bool × List Char × List Char) :=
          match cs3 with
          | 'e' :: '+' :: r | 'E' :: '+' :: r =>
            match takeDigitsAll r with
            | ([], _) => none
            | (ds, r2) => some (false, ds, r2)
          | 'e' :: '-' :: r | 'E' :: '-' :: r =>
            match takeDigitsAll r with
            | ([], _) => none
            | (ds, r2) => some (true, ds, r2)
          | 'e' :: r | 'E' :: r =>
            match takeDigitsAll r with
            | ([], _) => none
            | (ds, r2) => some (false, ds, r2)
          | _ => some (false, [], cs3)
        match expParse with
        | none => none
        | some (eNeg, eDs, rest) =>
          let f := fracDs.length
          let mantissa : Nat := natOfDigits (intDs ++ fracDs)
          let e := natOfDigits eDs
          let (num, den) : Nat × Nat :=
            if eNeg then (mantissa, 10 ^ f * 10 ^ e) else (mantissa * 10 ^ e, 10 ^ f)
          some (((if neg then -(num : Int) else (num : Int)), den), rest)

mutual

/-- Parse a JSON value at the head of the input (whitespace already
skipped). `fuel` strictly exceeds the input length at the top entry. -/
def parseJsonValue : Nat → List Char → Option (Json × List Char)
  | 0, _ => none
  | fuel + 1, cs =>
    match cs with
    | 't' :: 'r' :: 'u' :: 'e' :: rest => some (.jbool true, rest)
    | 'f' :: 'a' :: 'l' :: 's' :: 'e' :: rest => some (.jbool false, rest)
    | 'n' :: 'u' :: 'l' :: 'l' :: rest => some (.jnull, rest)
    | '"' :: rest =>
      match parseStrChars rest with
      | some (content, r2) => some (.jstr (String.mk content), r2)
      | none => none
    | '[' :: rest =>
      match skipJsonWs rest with
      | ']' :: r2 => some (.jarr [], r2)
      | cs2 => parseJsonArrayItems fuel cs2 []
    | '{' :: rest =>
      match skipJsonWs rest with
      | '}' :: r2 => some (.jobj [], r2)
      | cs2 => parseJsonObjMembers fuel cs2 []
    | _ =>
      match parseJsonNumber cs with
      | some ((num, den), rest) => some (.jnum num den, rest)
      | none => none

def parseJsonArrayItems : Nat → List Char → List Json → Option (Json × List Char)
  | 0, _, _ => none
  | fuel + 1, cs, acc =>
    match parseJsonValue fuel (skipJsonWs cs) with
    | none => none
    | some (v, rest) =>
      match skipJsonWs rest with
      | ',' :: r2 => parseJsonArrayItems fuel r2 (acc ++ [v])
      | ']' :: r2 => some (.jarr (acc ++ [v]), r2)
      | _ => none

def parseJsonObjMembers : Nat → List Char → List (String × Json) →
    Option (Json × List Char)
  | 0, _, _ => none
  | fuel + 1, cs, acc =>
    match cs with
    | '"' :: r =>
      match parseStrChars r with
      | none => none
      | some (kcs, r2) =>
        match skipJsonWs r2 with
        | ':' :: r3 =>
          match parseJsonValue fuel (skipJsonWs r3) with
          | none => none
          | some (v, r4) =>
            let acc2 := setField acc (String.mk kcs) v
            match skipJsonWs r4 with
            | ',' :: r5 => parseJsonObjMembers fuel (skipJsonWs r5) acc2
            | '}' :: r5 => some (.jobj acc2, r5)
            | _ => none
        | _ => none
    | _ => none

end

/-- JS `JSON.parse`, returning `none` on any syntax error (the source always
wraps the call in `try {} catch {}`). -/
def jsonParse (s : String) : Option Json :=
  match parseJsonValue (s.data.length + 2) (skipJsonWs s.data) with
  | some (v, rest) => if skipJsonWs rest = [] then some v else none
  | none => none

/-! ### `extractJsonFromHtml` (viewers.mjs 35–45)

```js
function extractJsonFromHtml(html, varName) {
  const re1 = new RegExp(`${varName}\\s*=\\s*(\\{[\\s\\S]*?\\});`, "m");
  const m1 = html.match(re1);
  if (m1) { try { return JSON.parse(m1[1]); } catch {} }
  const re2 = new RegExp(`"${varName}"\\s*:\\s*(\\{[\\s\\S]*?\\})\\s*(,|\\})`, "m");
  const m2 = html.match(re2);
  if (m2) { try { return JSON.parse(m2[1]); } catch {} }
  return null;
}
```

The lazy capture `\{[\s\S]*?\};` ends at the first `}` directly followed by
`;`; in `re2` it ends at the first `}` followed by optional whitespace and a
`,` or `}`. -/

def skipJsWsL (cs : List Char) : List Char := cs.dropWhile isJsSpaceChar

/-- Shortest tail (from just after the opening brace) ending with a `}` that
is immediately followed by `;`; returns the capture content including that
closing `}`. -/
def findBraceSemi : List Char → Option (List Char)
  | '}' :: ';' :: _ => some ['}']
  | c :: rest => (findBraceSemi rest).map (fun t => c :: t)
  | [] => none

/-- Shortest tail ending with a `}` that is followed by `\s*` and then `,` or
`}`; returns the capture content including that closing `}`. -/
def findBraceThenDelim : List Char → Option (List Char)
  | [] => none
  | '}' :: rest =>
    match skipJsWsL rest with
    | ',' :: _ => some ['}']
    | '}' :: _ => some ['}']
    | _ => (findBraceThenDelim rest).map (fun t => '}' :: t)
  | c :: rest => (findBraceThenDelim rest).map (fun t => c :: t)

/-- Attempt `re1` anchored at the current position. -/
def tryRe1At (varName cs : List Char) : Option (List Char) :=
  if startsWithL varName cs then
    match skipJsWsL (cs.drop varName.length) with
    | '=' :: r2 =>
      match skipJsWsL r2 with
      | '{' :: r3 => (findBraceSemi r3).map (fun t => '{' :: t)
      | _ => none
    | _ => none
  else none

/-- Leftmost `re1` match (capture group). -/
def scanRe1 (varName : List Char) : List Char → Option (List Char)
  | [] => none
  | c :: cs =>
    match tryRe1At varName (c :: cs) with
    | some m => some m
    | none => scanRe1 varName cs

/-- Attempt `re2` anchored at the current position. -/
def tryRe2At (varName cs : List Char) : Option (List Char) :=
  if startsWithL ('"' :: (varName ++ ['"'])) cs then
    match skipJsWsL (cs.drop (varName.length + 2)) with
    | ':' :: r2 =>
      match skipJsWsL r2 with
      | '{' :: r3 => (findBraceThenDelim r3).map (fun t => '{' :: t)
      | _ => none
    | _ => none
  else none

/-- Leftmost `re2` match (capture group). -/
def scanRe2 (varName : List Char) : List Char → Option (List Char)
  | [] => none
  | c :: cs =>
    match tryRe2At varName (c :: cs) with
    | some m => some m
    | none => scanRe2 varName cs

/-- The `re2` fallback half of `extractJsonFromHtml`. -/
def extractJsonRe2 (html varName : String) : Option Json :=
  match scanRe2 varName.data html.data with
  | some cap => jsonParse (String.mk cap)
  | none => none

/-- Embedding of `extractJsonFromHtml` (viewers.mjs 35–45). -/
def extractJsonFromHtml (html varName : String) : Option Json :=
  match scanRe1 varName.data html.data with
  | some cap =>
    match jsonParse (String.mk cap) with
    | some j => some j
    | none => extractJsonRe2 html varName
  | none => extractJsonRe2 html varName

/-! ### `isLiveNowFromHtml` (viewers.mjs 95–110) -/

/-- One step of JS optional chaining `x?.k`: property lookup on an object;
`undefined` on `null`/`undefined`/primitives/arrays. -/
def jfieldOpt (j : Option Json) (k : String) : Option Json :=
  match j with
  | some (.jobj fs) => lookupField k fs
  | _ => none

/-- The loose flag regex `/"isLiveNow"\s*:\s*true/` as a substring test. -/
def hasIsLiveFlagL : List Char → Bool
  | [] => false
  | c :: cs =>
    (if startsWithL "\"isLiveNow\"".data (c :: cs) then
      match skipJsWsL ((c :: cs).drop 11) with
      | ':' :: r2 => startsWithL "true".data (skipJsWsL r2)
      | _ => false
     else false) || hasIsLiveFlagL cs

/-- Embedding of `isLiveNowFromHtml` (viewers.mjs 95–110): structured
`ytInitialPlayerResponse...liveBroadcastDetails.isLiveNow === true`, OR the
loose `"isLiveNow": true` token, OR a watching-now/viewer phrase anywhere in
the raw HTML. -/
def isLiveNowFromHtml (html : String) : Bool :=
  let player := extractJsonFromHtml html "ytInitialPlayerResponse"
  let structured :=
    match
      jfieldOpt
        (jfieldOpt
          (jfieldOpt (jfieldOpt player "microformat") "playerMicroformatRenderer")
          "liveBroadcastDetails")
        "isLiveNow" with
    | some (.jbool true) => true
    | _ => false
  let hasFlag := hasIsLiveFlagL html.data
  let hasWatching := viewerPhraseTest html.data
  structured || hasFlag || hasWatching

/-! ### `deepPickConcurrentViewers` (viewers.mjs 57–92)

```js
function deepPickConcurrentViewers(obj) {
  try {
    const found = [];
    const walk = (o) => {
      if (!o || typeof o !== "object") return;
      if (o.viewCount?.runs && Array.isArray(o.viewCount.runs)) {
        const text = o.viewCount.runs.map((r) => r.text).join(" ");
        const n = extractNumberFromText(text);
        if (n !== null) found.push(n);
      }
      if (o.viewCount?.simpleText && typeof o.viewCount.simpleText === "string") { ... }
      if (o.runs && Array.isArray(o.runs)) {
        const joined = o.runs.map((r) => r.text).filter(Boolean).join(" ");
        if (/(watching now|...)/i.test(joined)) { ... }
      }
      for (const k of Object.keys(o)) {
        const v = o[k];
        if (typeof v === "string" && /(watching now|...)/i.test(v)) { ... }
        else if (v && typeof v === "object") walk(v);
      }
    };
    walk(obj);
    return found.find((n) => Number.isFinite(n) && n >= 0) ?? null;
  } catch { return null; }
}
```

`r.text` throws a `TypeError` when a `runs` element is `null`; the outer
`try`/`catch` then discards every candidate collected so far and yields
`null`.  The walk is modelled in the `Except Unit` monad, the `catch` by the
final `match`. -/

/-- JS string coercion of a defined value as performed by `Array.join`
(`null`/`undefined` render as `""`).  Rendering of non-integral numbers is
idealized (never exercised: every number reachable here is an integer). -/
def jsNumToString (num : Int) (den : Nat) : String :=
  if den = 1 then toString num
  else if den ≠ 0 && num % (den : Int) = 0 then toString (num / (den : Int))
  else toString num ++ "/" ++ toString den

mutual

def jsJoinStr : Json → String
  | .jnull => ""
  | .jbool b => if b then "true" else "false"
  | .jnum num den => jsNumToString num den
  | .jstr s => s
  | .jarr l => String.intercalate "," (jsJoinList l)
  | .jobj _ => "[object Object]"

def jsJoinList : List Json → List String
  | [] => []
  | x :: xs => jsJoinStr x :: jsJoinList xs

end

/-- JS truthiness of a JSON value. -/
def jsTruthy : Json → Bool
  | .jnull => false
  | .jbool b => b
  | .jnum num _ => !(num = 0)
  | .jstr s => !(s = "")
  | .jarr _ => true
  | .jobj _ => true

/-- Reads `r.text` as joined (no `filter(Boolean)`): throws on a `null` element,
`undefined`/`null` text joins as the empty string. -/
def vcRunText (r : Json) : Except Unit String :=
  match r with
  | .jnull => .error ()
  | .jobj fs =>
    .ok (match lookupField "text" fs with
         | none => ""
         | some .jnull => ""
         | some v => jsJoinStr v)
  | _ => .ok ""

def vcRunTexts : List Json → Except Unit (List String)
  | [] => .ok []
  | r :: rs =>
    match vcRunText r with
    | .error e => .error e
    | .ok t =>
      match vcRunTexts rs with
      | .error e => .error e
      | .ok ts => .ok (t :: ts)

/-- Reads `r.text` as a value (before `filter(Boolean)`): throws on a `null`
element, `none` = `undefined`. -/
def runTextVal (r : Json) : Except Unit (Option Json) :=
  match r with
  | .jnull => .error ()
  | .jobj fs => .ok (lookupField "text" fs)
  | _ => .ok none

/-- Computes `runs.map((r) => r.text).filter(Boolean)` coerced to strings. -/
def runTextStrs : List Json → Except Unit (List String)
  | [] => .ok []
  | r :: rs =>
    match runTextVal r with
    | .error e => .error e
    | .ok v =>
      match runTextStrs rs with
      | .error e => .error e
      | .ok ts =>
        .ok (match v with
             | some w => if jsTruthy w then jsJoinStr w :: ts else ts
             | none => ts)

def optToList : Option Nat → List Nat
  | some n => [n]
  | none => []

/-- The `o.viewCount?.runs` block of `walk` (lines 63–67); `.error` models a
thrown `TypeError`. -/
def vcRunsPartE (fields : List (String × Json)) : Except Unit (List Nat) :=
  match jfieldOpt (lookupField "viewCount" fields) "runs" with
  | some (.jarr rs) =>
    match vcRunTexts rs with
    | .error e => .error e
    | .ok ts => .ok (optToList (extractNumberFromText (String.intercalate " " ts)))
  | _ => .ok []

/-- The `o.viewCount?.simpleText` block of `walk` (lines 68–71) — no element
access, so it cannot throw. -/
def simpleTextPart (fields : List (String × Json)) : List Nat :=
  match jfieldOpt (lookupField "viewCount" fields) "simpleText" with
  | some (.jstr s) => if s = "" then [] else optToList (extractNumberFromText s)
  | _ => []

/-- The `o.runs` block of `walk` (lines 72–78). -/
def runsPartE (fields : List (String × Json)) : Except Unit (List Nat) :=
  match lookupField "runs" fields with
  | some (.jarr rs) =>
    match runTextStrs rs with
    | .error e => .error e
    | .ok ts =>
      let joined := String.intercalate " " ts
      .ok (if viewerPhraseTest joined.data then optToList (extractNumberFromText joined)
           else [])
  | _ => .ok []

mutual

/-- The recursive `walk`, collecting candidates in visit order; `.error`
models a thrown `TypeError`. -/
def walkJson : Json → Except Unit (List Nat)
  | .jobj fields =>
    match vcRunsPartE fields with
    | .error e => .error e
    | .ok part1 =>
      match runsPartE fields with
      | .error e => .error e
      | .ok part3 =>
        match walkFields fields with
        | .error e => .error e
        | .ok part4 => .ok (part1 ++ simpleTextPart fields ++ part3 ++ part4)
  | .jarr es => walkElems es
  | _ => .ok []

/-- The `for (const k of Object.keys(o))` loop over an object's fields. -/
def walkFields : List (String × Json) → Except Unit (List Nat)
  | [] => .ok []
  | (_, v) :: fs =>
    match
      ((match v with
        | .jstr s =>
          .ok (if viewerPhraseTest s.data then optToList (extractNumberFromText s) else [])
        | .jobj _ => walkJson v
        | .jarr _ => walkJson v
        | _ => .ok []) : Except Unit (List Nat)) with
    | .error e => .error e
    | .ok here =>
      match walkFields fs with
      | .error e => .error e
      | .ok rest => .ok (here ++ rest)

/-- The same loop over an array's elements (`Object.keys` of an array yields
its indices). -/
def walkElems : List Json → Except Unit (List Nat)
  | [] => .ok []
  | v :: vs =>
    match
      ((match v with
        | .jstr s =>
          .ok (if viewerPhraseTest s.data then optToList (extractNumberFromText s) else [])
        | .jobj _ => walkJson v
        | .jarr _ => walkJson v
        | _ => .ok []) : Except Unit (List Nat)) with
    | .error e => .error e
    | .ok here =>
      match walkElems vs with
      | .error e => .error e
      | .ok rest => .ok (here ++ rest)

end

/-- The final `found.find((n) => Number.isFinite(n) && n >= 0)` predicate. -/
def viewerCandOk (n : Nat) : Bool := jsNumberFinite n && decide (0 ≤ n)

/-- Embedding of `deepPickConcurrentViewers` (viewers.mjs 57–92), the function exposed in
the spec as `findConcurrentViewers`. -/
def deepPickConcurrentViewers (o : Json) : Option Nat :=
  match walkJson o with
  | .error _ => none
  | .ok found => found.find? viewerCandOk

/-! Claim-side description of the candidate collection (C8): candidates in
DFS order — per node `viewCount.runs` concatenation, then
`viewCount.simpleText`, then a `runs[]` array whose joined text matches a
viewer phrase, then string fields matching the phrase, in key encounter
order.  This version is total: it is the claim's description, which does not
account for the thrown `TypeError` on `null` elements inside `runs` arrays
(a `null` run contributes an empty text / is dropped by the filter). -/

/-- Total (claim-side) variant of `vcRunText`. -/
def specVcRunText (r : Json) : String :=
  match r with
  | .jobj fs =>
    match lookupField "text" fs with
    | none => ""
    | some .jnull => ""
    | some v => jsJoinStr v
  | _ => ""

def specVcRunTexts : List Json → List String
  | [] => []
  | r :: rs => specVcRunText r :: specVcRunTexts rs

/-- Total (claim-side) variant of `runTextVal`. -/
def specRunTextVal (r : Json) : Option Json :=
  match r with
  | .jobj fs => lookupField "text" fs
  | _ => none

def specRunStrs : List Json → List String
  | [] => []
  | r :: rs =>
    match specRunTextVal r with
    | some w => if jsTruthy w then jsJoinStr w :: specRunStrs rs else specRunStrs rs
    | none => specRunStrs rs

/-- Claim-side `viewCount.runs` candidates. -/
def vcRunsPartS (fields : List (String × Json)) : List Nat :=
  match jfieldOpt (lookupField "viewCount" fields) "runs" with
  | some (.jarr rs) =>
    optToList (extractNumberFromText (String.intercalate " " (specVcRunTexts rs)))
  | _ => []

/-- Claim-side `runs[]` candidates. -/
def runsPartS (fields : List (String × Json)) : List Nat :=
  match lookupField "runs" fields with
  | some (.jarr rs) =>
    let joined := String.intercalate " " (specRunStrs rs)
    if viewerPhraseTest joined.data then optToList (extractNumberFromText joined) else []
  | _ => []

mutual

/-- The candidate list described by claim C8, in DFS order. -/
def specCandidates : Json → List Nat
  | .jobj fields =>
    vcRunsPartS fields ++ simpleTextPart fields ++ runsPartS fields ++
      specFieldCandidates fields
  | .jarr es => specElemCandidates es
  | _ => []

def specFieldCandidates : List (String × Json) → List Nat
  | [] => []
  | (_, v) :: fs =>
    (match v with
     | .jstr s => if viewerPhraseTest s.data then optToList (extractNumberFromText s) else []
     | .jobj _ => specCandidates v
     | .jarr _ => specCandidates v
     | _ => []) ++ specFieldCandidates fs

def specElemCandidates : List Json → List Nat
  | [] => []
  | v :: vs =>
    (match v with
     | .jstr s => if viewerPhraseTest s.data then optToList (extractNumberFromText s) else []
     | .jobj _ => specCandidates v
     | .jarr _ => specCandidates v
     | _ => []) ++ specElemCandidates vs

end

/-! ### The network model and `fetchText` (viewers.mjs 16–33)

```js
async function fetchText(url, opts = {}) {
  const r = await fetch(url, { redirect: opts.redirect ?? "follow", headers: {...} });
  if (!r.ok && !(r.status >= 300 && r.status < 400)) {
    throw new Error(`HTTP ${r.status} al solicitar ${url}`);
  }
  return { r, text: r.status >= 300 ? "" : await r.text() };
}
```

The network is modelled by an oracle mapping each `(url, redirect-mode)`
request to its observable outcome (a network error, or the response the
`fetch` call resolves to — for `redirect: "follow"` that is the final
response after any redirects). -/

inductive RedirMode where
  | manual : RedirMode
  | follow : RedirMode
deriving DecidableEq, Inhabited

/-- The observable part of a `fetch` `Response`: status, the `location`
header, and the body text. -/
structure HttpResp where
  status : Nat
  location : Option String
  body : String
deriving DecidableEq, Inhabited

inductive FetchOutcome where
  | netError : FetchOutcome
  | resp : HttpResp → FetchOutcome
deriving DecidableEq, Inhabited

/-- A network oracle: what each request observes. -/
def NetOracle : Type := String → RedirMode → FetchOutcome

inductive FetchErr where
  | network : FetchErr
  | httpStatus : Nat → FetchErr
deriving DecidableEq

deriving instance DecidableEq for Except

/-- JS `Response.ok`: status in `[200, 300)`. -/
def jsRespOk (status : Nat) : Bool := 200 ≤ status && status < 300

/-- Embedding of `fetchText` (viewers.mjs 16–33). -/
def fetchText (o : NetOracle) (url : String) (mode : RedirMode) :
    Except FetchErr (HttpResp × String) :=
  match o url mode with
  | .netError => .error .network
  | .resp r =>
    if !(jsRespOk r.status) && !(300 ≤ r.status && r.status < 400) then
      .error (.httpStatus r.status)
    else
      .ok (r, if 300 ≤ r.status then "" else r.body)

/-! ### URL builders (viewers.mjs 13–14) -/

/-- Is `c` in `encodeURIComponent`'s unreserved set
`A-Z a-z 0-9 - _ . ! ~ * ' ( )`? -/
def uriUnreserved (c : Char) : Bool :=
  (65 ≤ c.toNat && c.toNat ≤ 90) || (97 ≤ c.toNat && c.toNat ≤ 122) ||
  (48 ≤ c.toNat && c.toNat ≤ 57) ||
  c.toNat = 45 || c.toNat = 95 || c.toNat = 46 || c.toNat = 33 ||
  c.toNat = 126 || c.toNat = 42 || c.toNat = 39 || c.toNat = 40 || c.toNat = 41

def hexDigitChar (n : Nat) : Char :=
  if n < 10 then Char.ofNat (48 + n) else Char.ofNat (55 + n)

/-- UTF-8 bytes of a scalar value. -/
def utf8Bytes (n : Nat) : List Nat :=
  if n < 128 then [n]
  else if n < 2048 then [192 + n / 64, 128 + n % 64]
  else if n < 65536 then [224 + n / 4096, 128 + n / 64 % 64, 128 + n % 64]
  else [240 + n / 262144, 128 + n / 4096 % 64, 128 + n / 64 % 64, 128 + n % 64]

/-- JS `encodeURIComponent`. -/
def encodeURIComponent (s : String) : String :=
  String.mk (s.data.foldr
    (fun c acc =>
      if uriUnreserved c then c :: acc
      else
        (utf8Bytes c.toNat).foldr
          (fun b acc2 => '%' :: hexDigitChar (b / 16) :: hexDigitChar (b % 16) :: acc2)
          acc)
    [])

def ytWatchUrl (id : String) : String :=
  "https://www.youtube.com/watch?v=" ++ encodeURIComponent id

def ytLiveChannelUrl (uc : String) : String :=
  "https://www.youtube.com/channel/" ++ encodeURIComponent uc ++ "/live"

/-! ### `resolveLiveVideoIdStrict` (viewers.mjs 113–148)

```js
async function resolveLiveVideoIdStrict(channelId) {
  const { r, text } = await fetchText(YT_LIVE_CHANNEL(channelId), { redirect: "manual" });
  if (r.status >= 300 && r.status < 400) {
    const loc = r.headers.get("location");
    if (loc) {
      const m = String(loc).match(/[?&]v=([a-zA-Z0-9_-]{11})/);
      if (m) return m[1];
      const mAbs = String(loc).match(/watch\?v=([a-zA-Z0-9_-]{11})/);
      if (mAbs) return mAbs[1];
    }
  }
  let html = text;
  if (!html) {
    const second = await fetchText(YT_LIVE_CHANNEL(channelId), { redirect: "follow" });
    html = second.text;
  }
  if (!html) return null;
  const mVid = html.match(/"videoId":"([a-zA-Z0-9_-]{11})"/);
  if (!mVid) return null;
  const candidate = mVid[1];
  const { text: watchHtml } = await fetchText(YT_WATCH(candidate));
  if (isLiveNowFromHtml(watchHtml)) return candidate;
  return null;
}
```

The embedding additionally records the trace of fetches performed, so that
"no verification fetch happens" is a provable statement. -/

/-- Lines 120–123: extract a video id from a redirect `Location` value
(`v=` query parameter first, then a `watch?v=` fragment). -/
def locVideoId (loc : String) : Option String :=
  match matchVParamL loc.data with
  | some m => some (String.mk m)
  | none =>
    match matchWatchVL loc.data with
    | some m => some (String.mk m)
    | none => none

/-- Steps 3–4 of the resolution (scan the channel HTML for a candidate and
verify it on its own watch page), with the fetch trace accumulated so far. -/
def resolveFromHtml (o : NetOracle) (calls : List (String × RedirMode))
    (html : String) : Except FetchErr (Option String) × List (String × RedirMode) :=
  if html = "" then (.ok none, calls)
  else
    match matchVideoIdLitL html.data with
    | none => (.ok none, calls)
    | some cand =>
      let candS := String.mk cand
      let wurl := ytWatchUrl candS
      match fetchText o wurl .follow with
      | .error e => (.error e, calls ++ [(wurl, .follow)])
      | .ok (_, watchHtml) =>
        if isLiveNowFromHtml watchHtml then (.ok (some candS), calls ++ [(wurl, .follow)])
        else (.ok none, calls ++ [(wurl, .follow)])

/-- Embedding of `resolveLiveVideoIdStrict` together with its fetch trace. -/
def resolveLiveVideoIdStrictT (o : NetOracle) (channelId : String) :
    Except FetchErr (Option String) × List (String × RedirMode) :=
  let url := ytLiveChannelUrl channelId
  match fetchText o url .manual with
  | .error e => (.error e, [(url, .manual)])
  | .ok (r, text) =>
    let redirectHit : Option String :=
      if 300 ≤ r.status && r.status < 400 then
        match r.location with
        | some loc => locVideoId loc
        | none => none
      else none
    match redirectHit with
    | some vid => (.ok (some vid), [(url, .manual)])
    | none =>
      if text = "" then
        match fetchText o url .follow with
        | .error e => (.error e, [(url, .manual), (url, .follow)])
        | .ok (_, text2) => resolveFromHtml o [(url, .manual), (url, .follow)] text2
      else resolveFromHtml o [(url, .manual)] text

/-- Embedding of `resolveLiveVideoIdStrict` (viewers.mjs 113–148): the resolution result
alone. -/
def resolveLiveVideoIdStrict (o : NetOracle) (channelId : String) :
    Except FetchErr (Option String) :=
  (resolveLiveVideoIdStrictT o channelId).1

/-! ### The metadata service (src/src/services/youtubeService.ts)

```ts
const globalCache = new Map<string, { data: YouTubeResponse; timestamp: number }>();
const pendingRequests = new Map<string, Promise<YouTubeResponse>>();
const CACHE_DURATION = 30000; // 30 seconds cache
```

The cache and pending maps are modelled as association lists with JS `Map`
semantics (`set` keeps the entry position, `delete` removes the key).  The
response payload is an arbitrary type `α` — the caching logic never inspects
it.  `Date.now()` values are `Nat` milliseconds.  An upstream HTTP exchange
is a status plus the parsed JSON body (`none` = `response.json()` rejects),
or a network error (`fetch` rejects). -/

def CACHE_DURATION : Nat := 30000

/-- The `globalCache` map, keyed by raw video id or `"channel:" + channelId`; each
entry is `(data, timestamp)`. -/
def MetaCache (α : Type) : Type := List (String × (α × Nat))

def cacheGet {α : Type} (c : MetaCache α) (k : String) : Option (α × Nat) :=
  (List.find? (fun e => e.1 = k) c).map (fun e => e.2)

def cacheSet {α : Type} (c : MetaCache α) (k : String) (v : α × Nat) : MetaCache α :=
  match c with
  | [] => [(k, v)]
  | (k0, v0) :: t => if k0 = k then (k0, v) :: t else (k0, v0) :: cacheSet t k v

def cacheHas {α : Type} (c : MetaCache α) (k : String) : Bool :=
  (cacheGet c k).isSome

def pendGet (p : List (String × Nat)) (k : String) : Option Nat :=
  (List.find? (fun e => e.1 = k) p).map (fun e => e.2)

def pendSet (p : List (String × Nat)) (k : String) (pid : Nat) : List (String × Nat) :=
  match p with
  | [] => [(k, pid)]
  | (k0, v0) :: t => if k0 = k then (k0, pid) :: t else (k0, v0) :: pendSet t k pid

def pendDel (p : List (String × Nat)) (k : String) : List (String × Nat) :=
  p.filter (fun e => !(e.1 = k))

/-- Outcome of one upstream HTTP exchange. -/
inductive Upstream (α : Type) where
  | netError : Upstream α
  | resp : Nat → Option α → Upstream α
deriving DecidableEq

/-- The error kinds thrown by the service (`Invalid video ID: …`,
`Invalid channel ID: …`, `HTTP …: …`, a rejected `fetch`, a rejected
`response.json()`). -/
inductive SvcErr where
  | invalidVideoId : String → SvcErr
  | invalidChannelId : String → SvcErr
  | httpError : Nat → SvcErr
  | networkError : SvcErr
  | jsonError : SvcErr
deriving DecidableEq

/-! `fetchVideoData` (youtubeService.ts 99–142):

```ts
const response = await fetch(`${this.BASE_URL}/video/${videoId}`);
if (!response.ok) {
  if (response.status === 400) { throw new Error(`Invalid video ID: ${videoId}`); }
  const cached = globalCache.get(videoId);
  if (cached) { return cached.data; }
  throw new Error(`HTTP ${response.status}: ${response.statusText}`);
}
const data = await response.json();
globalCache.set(videoId, { data, timestamp: Date.now() });
return data;
```

(the `catch` block only rethrows, so a rejected `fetch` — a network error —
propagates even when a cache entry exists).  The function returns the result
together with the possibly-updated cache. -/

def fetchVideoData {α : Type} (up : Upstream α) (cache : MetaCache α)
    (videoId : String) (now : Nat) : Except SvcErr α × MetaCache α :=
  match up with
  | .netError => (.error .networkError, cache)
  | .resp status json =>
    if !(jsRespOk status) then
      if status = 400 then (.error (.invalidVideoId videoId), cache)
      else
        match cacheGet cache videoId with
        | some (d, _) => (.ok d, cache)
        | none => (.error (.httpError status), cache)
    else
      match json with
      | none => (.error .jsonError, cache)
      | some data => (.ok data, cacheSet cache videoId (data, now))

/-- Embedding of `fetchChannelData` (youtubeService.ts 179–222): identical to
`fetchVideoData` up to the cache key `"channel:" + channelId` and the error
message. -/
def fetchChannelData {α : Type} (up : Upstream α) (cache : MetaCache α)
    (channelId : String) (now : Nat) : Except SvcErr α × MetaCache α :=
  match up with
  | .netError => (.error .networkError, cache)
  | .resp status json =>
    if !(jsRespOk status) then
      if status = 400 then (.error (.invalidChannelId channelId), cache)
      else
        match cacheGet cache ("channel:" ++ channelId) with
        | some (d, _) => (.ok d, cache)
        | none => (.error (.httpError status), cache)
    else
      match json with
      | none => (.error .jsonError, cache)
      | some data => (.ok data, cacheSet cache ("channel:" ++ channelId) (data, now))

/-! `getVideoMetadata` / `getChannelMetadata` (youtubeService.ts 64–97 and
144–177): the synchronous prefix up to the first `await` decides whether the
caller is served from fresh cache, joins an existing pending promise, or
registers a new fetch:

```ts
const cached = globalCache.get(videoId);
if (cached && Date.now() - cached.timestamp < CACHE_DURATION) { return cached.data; }
const pending = pendingRequests.get(videoId);
if (pending) { return await pending; }
const requestPromise = this.fetchVideoData(videoId);
pendingRequests.set(videoId, requestPromise);
try { return await requestPromise; } finally { pendingRequests.delete(videoId); }
```

The event-loop state is `Svc`: the cache, the pending map (key ↦ promise
id) and the next fresh promise id (`nextPid` also counts how many fetches
have ever been started). -/

structure Svc (α : Type) where
  cache : MetaCache α
  pending : List (String × Nat)
  nextPid : Nat

def svcInit {α : Type} : Svc α := ⟨[], [], 0⟩

/-- How a lookup's synchronous prefix ends. -/
inductive StartOutcome (α : Type) where
  | cachedHit : α → StartOutcome α
  | joined : Nat → StartOutcome α
  | started : Nat → StartOutcome α
deriving DecidableEq

/-- The shared synchronous prefix of `getVideoMetadata` /
`getChannelMetadata` for a given cache key. -/
def metaLookupStart {α : Type} (s : Svc α) (key : String) (now : Nat) :
    Svc α × StartOutcome α :=
  match cacheGet s.cache key with
  | some (d, ts) =>
    if now - ts < CACHE_DURATION then (s, .cachedHit d)
    else
      match pendGet s.pending key with
      | some pid => (s, .joined pid)
      | none =>
        ({ s with pending := pendSet s.pending key s.nextPid,
                  nextPid := s.nextPid + 1 }, .started s.nextPid)
  | none =>
    match pendGet s.pending key with
    | some pid => (s, .joined pid)
    | none =>
      ({ s with pending := pendSet s.pending key s.nextPid,
                nextPid := s.nextPid + 1 }, .started s.nextPid)

def getVideoMetadataStart {α : Type} (s : Svc α) (videoId : String) (now : Nat) :
    Svc α × StartOutcome α :=
  metaLookupStart s videoId now

def getChannelMetadataStart {α : Type} (s : Svc α) (channelId : String) (now : Nat) :
    Svc α × StartOutcome α :=
  metaLookupStart s ("channel:" ++ channelId) now

/-- Completion of the fetch started by `getVideoMetadata` for `videoId`:
`fetchVideoData` runs (updating the cache on success), and the `finally`
block deletes the pending entry unconditionally before the promise settles
with the result. -/
def videoFetchComplete {α : Type} (s : Svc α) (videoId : String)
    (up : Upstream α) (now : Nat) : Svc α × Except SvcErr α :=
  let (res, cache2) := fetchVideoData up s.cache videoId now
  ({ s with cache := cache2, pending := pendDel s.pending videoId }, res)

/-- Completion of the fetch started by `getChannelMetadata` for
`channelId` (pending key `"channel:" + channelId`). -/
def channelFetchComplete {α : Type} (s : Svc α) (channelId : String)
    (up : Upstream α) (now : Nat) : Svc α × Except SvcErr α :=
  let (res, cache2) := fetchChannelData up s.cache channelId now
  ({ s with cache := cache2, pending := pendDel s.pending ("channel:" ++ channelId) },
   res)

/-- The result a caller eventually observes, given how each promise id
settles: a fresh cache hit returns directly, a joined or started caller gets
its promise's settlement. -/
def callerResult {α : Type} (settle : Nat → Except SvcErr α) :
    StartOutcome α → Except SvcErr α
  | .cachedHit d => .ok d
  | .joined pid => settle pid
  | .started pid => settle pid

/-- Runs `n` lookups for the same key arriving back-to-back on the event loop
(no fetch completion in between), as issued by `getVideoMetadata`. -/
def runArrivals {α : Type} (s : Svc α) (k : String) (now : Nat) :
    Nat → Svc α × List (StartOutcome α)
  | 0 => (s, [])
  | n + 1 =>
    let (s1, o) := getVideoMetadataStart s k now
    let (s2, os) := runArrivals s1 k now n
    (s2, o :: os)

/-- Event-loop events touching the service state. -/
inductive SvcEv (α : Type) where
  | videoArrive : String → Nat → SvcEv α
  | channelArrive : String → Nat → SvcEv α
  | videoDone : String → Upstream α → Nat → SvcEv α
  | channelDone : String → Upstream α → Nat → SvcEv α

def svcStep {α : Type} (s : Svc α) : SvcEv α → Svc α
  | .videoArrive id t => (getVideoMetadataStart s id t).1
  | .channelArrive id t => (getChannelMetadataStart s id t).1
  | .videoDone id up t => (videoFetchComplete s id up t).1
  | .channelDone id up t => (channelFetchComplete s id up t).1

def svcRun {α : Type} (s : Svc α) (evs : List (SvcEv α)) : Svc α :=
  evs.foldl svcStep s

/-- The invariant "at most one pending request per key". -/
def pendingKeysUnique {α : Type} (s : Svc α) : Prop :=
  (s.pending.map (fun e => e.1)).Nodup

/-! ### The sequential batch loops (youtubeService.ts 339–365 and 367–393)

```ts
for (const channelId of channelIds) {
  try {
    const response = await this.getChannelMetadata(channelId);
    results.push(response);
    if (channelIds.indexOf(channelId) < channelIds.length - 1) {
      const wasCached = globalCache.has(`channel:${channelId}`) &&
        Date.now() - globalCache.get(`channel:${channelId}`)!.timestamp < CACHE_DURATION;
      if (!wasCached) { await this.delay(500); }
    }
  } catch { /* skip */ }
}
```

The batch runs alone on the event loop; a cold fetch for key `k` takes
`env.dur k` milliseconds and observes `env.upstream k`, statements between
awaits run in the same millisecond tick.  Each processed item records
whether the 500 ms delay was inserted after it. -/

structure BatchEnv (α : Type) where
  upstream : String → Upstream α
  dur : String → Nat

/-- JS `Array.prototype.indexOf` (first occurrence, `-1` if absent). -/
def jsIndexOfAux (i : Nat) : List String → String → Int
  | [], _ => -1
  | y :: ys, x => if y = x then (i : Int) else jsIndexOfAux (i + 1) ys x

def jsIndexOf (l : List String) (x : String) : Int := jsIndexOfAux 0 l x

/-- One awaited `getChannelMetadata` call inside the batch loop: a fresh
cache hit returns in the same tick; otherwise the registered fetch runs to
completion.  (A `joined` outcome cannot occur while the batch runs alone
with no pending entry for the key; it is mapped to a network error.) -/
def channelItemRun {α : Type} (env : BatchEnv α) (s : Svc α) (cid : String)
    (t : Nat) : Svc α × Nat × Except SvcErr α :=
  match getChannelMetadataStart s cid t with
  | (s1, .cachedHit d) => (s1, t, .ok d)
  | (s1, .started _) =>
    let t2 := t + env.dur cid
    let (s2, res) := channelFetchComplete s1 cid (env.upstream cid) t2
    (s2, t2, res)
  | (s1, .joined _) => (s1, t, .error .networkError)

/-- One awaited `getVideoMetadata` call inside `getVideosMetadata`. -/
def videoItemRun {α : Type} (env : BatchEnv α) (s : Svc α) (vid : String)
    (t : Nat) : Svc α × Nat × Except SvcErr α :=
  match getVideoMetadataStart s vid t with
  | (s1, .cachedHit d) => (s1, t, .ok d)
  | (s1, .started _) =>
    let t2 := t + env.dur vid
    let (s2, res) := videoFetchComplete s1 vid (env.upstream vid) t2
    (s2, t2, res)
  | (s1, .joined _) => (s1, t, .error .networkError)

/-- Embedding of `getChannelsMetadataFallback` (youtubeService.ts 339–365).  Returns the
final state, the final clock, the collected results, and per processed item
whether the 500 ms delay ran after it. -/
def getChannelsMetadataFallbackGo {α : Type} (env : BatchEnv α)
    (allIds : List String) :
    List String → Svc α → Nat → Svc α × Nat × List α × List (String × Bool)
  | [], s, t => (s, t, [], [])
  | cid :: rest, s, t =>
    let (s1, t1, res) := channelItemRun env s cid t
    match res with
    | .ok d =>
      let notLast := decide (jsIndexOf allIds cid < (allIds.length : Int) - 1)
      let wasCached :=
        cacheHas s1.cache ("channel:" ++ cid) &&
          (match cacheGet s1.cache ("channel:" ++ cid) with
           | some (_, ts) => decide (t1 - ts < CACHE_DURATION)
           | none => false)
      let delayed := notLast && !wasCached
      let t2 := if delayed then t1 + 500 else t1
      let (s2, t3, ds, evs) := getChannelsMetadataFallbackGo env allIds rest s1 t2
      (s2, t3, d :: ds, (cid, delayed) :: evs)
    | .error _ =>
      let (s2, t3, ds, evs) := getChannelsMetadataFallbackGo env allIds rest s1 t1
      (s2, t3, ds, (cid, false) :: evs)

def getChannelsMetadataFallback {α : Type} (env : BatchEnv α) (ids : List String)
    (s : Svc α) (t : Nat) : Svc α × Nat × List α × List (String × Bool) :=
  getChannelsMetadataFallbackGo env ids ids s t

/-- Embedding of `getVideosMetadata` (youtubeService.ts 367–393): the same loop over
video ids with raw cache keys. -/
def getVideosMetadataGo {α : Type} (env : BatchEnv α) (allIds : List String) :
    List String → Svc α → Nat → Svc α × Nat × List α × List (String × Bool)
  | [], s, t => (s, t, [], [])
  | vid :: rest, s, t =>
    let (s1, t1, res) := videoItemRun env s vid t
    match res with
    | .ok d =>
      let notLast := decide (jsIndexOf allIds vid < (allIds.length : Int) - 1)
      let wasCached :=
        cacheHas s1.cache vid &&
          (match cacheGet s1.cache vid with
           | some (_, ts) => decide (t1 - ts < CACHE_DURATION)
           | none => false)
      let delayed := notLast && !wasCached
      let t2 := if delayed then t1 + 500 else t1
      let (s2, t3, ds, evs) := getVideosMetadataGo env allIds rest s1 t2
      (s2, t3, d :: ds, (vid, delayed) :: evs)
    | .error _ =>
      let (s2, t3, ds, evs) := getVideosMetadataGo env allIds rest s1 t1
      (s2, t3, ds, (vid, false) :: evs)

def getVideosMetadata {α : Type} (env : BatchEnv α) (ids : List String)
    (s : Svc α) (t : Nat) : Svc α × Nat × List α × List (String × Bool) :=
  getVideosMetadataGo env ids ids s t

/-! ### `formatViewers` (youtubeService.ts 399–409)

```ts
static formatViewers(count: number | null): string {
  if (count === null || count === 0) return '0';
  if (count >= 1000000) { return `${(count / 1000000).toFixed(1)}M`; }
  if (count >= 1000) { return `${(count / 1000).toFixed(1)}K`; }
  return count.toString();
}
```

`count` is a JS `number`; the model takes its exact value (a non-negative
integer — integers below 2^53 are exactly representable as doubles, and
branch comparisons on such values coincide with the double comparisons).
`count / 1000000` and `count / 1000` are IEEE754 binary64 divisions: the
exact rational quotient is rounded to the nearest double, ties to the even
mantissa (`flGe1`).  `toFixed(1)` follows the ECMAScript algorithm for
arguments below 10^21 (every quotient of a count below 2^53 qualifies):
the integer `n` for which `n / 10` is closest to the double's exact value,
ties resolved toward the larger `n`, rendered with one decimal digit
(`jsToFixed1`).  In particular `formatViewers(1150) = "1.1K"`: the double
nearest to 1.15 lies below the decimal tie. -/

/-- Floor of the base-2 logarithm (fuel-based so that the kernel can
evaluate it). -/
def natLog2Aux : Nat → Nat → Nat
  | 0, _ => 0
  | fuel + 1, n => if 2 ≤ n then natLog2Aux fuel (n / 2) + 1 else 0

def natLog2 (n : Nat) : Nat := natLog2Aux n n

/-- The IEEE754 binary64 value nearest to `a / b` (round to nearest, ties
to even), for `1 ≤ b ≤ a` with the quotient in the normal finite range —
the only inputs `formatViewers` divides.  Returned as `(num, k)` denoting
the exact value `num / 2^k`. -/
def flGe1 (a b : Nat) : Nat × Nat :=
  let e := natLog2 (a / b)
  let (num, den) := if e ≤ 52 then (a * 2 ^ (52 - e), b) else (a, b * 2 ^ (e - 52))
  let m0 := num / den
  let r := num % den
  let m :=
    if 2 * r < den then m0
    else if den < 2 * r then m0 + 1
    else if m0 % 2 = 0 then m0 else m0 + 1
  if 52 ≤ e then (m * 2 ^ (e - 52), 0) else (m, 52 - e)

/-- ECMAScript `toFixed(1)` for a non-negative double of exact value
`num / 2^k` below 10^21: the integer closest to ten times that value, ties
toward the larger integer, rendered with one decimal digit. -/
def jsToFixed1 (num k : Nat) : String :=
  let n := (20 * num + 2 ^ k) / 2 ^ (k + 1)
  toString (n / 10) ++ "." ++ toString (n % 10)

/-- Embedding of `formatViewers` (youtubeService.ts 399–409); `none` models `null`. -/
def formatViewers (count : Option Nat) : String :=
  match count with
  | none => "0"
  | some c =>
    if c = 0 then "0"
    else if 1000000 ≤ c then jsToFixed1 (flGe1 c 1000000).1 (flGe1 c 1000000).2 ++ "M"
    else if 1000 ≤ c then jsToFixed1 (flGe1 c 1000).1 (flGe1 c 1000).2 ++ "K"
    else toString c

/-! ### Auxiliary structures and concrete environments used by the theorems below -/

/-- The network as observed in C4's witness scenario. -/
def c4Oracle : NetOracle := fun url mode =>
  if url = ytLiveChannelUrl "UCabc" then
    match mode with
    | .manual => .resp ⟨303, some "https://www.youtube.com/watch?v=XYZ12345678", ""⟩
    | .follow => .netError
  else .netError

/-- The network as observed in C1's counterexample: the channel page serves
a scrapeable candidate, but the verification fetch of the candidate's watch
page fails with a network error. -/
def c1Oracle : NetOracle := fun url mode =>
  if url = ytLiveChannelUrl "UCcex" then
    match mode with
    | .manual => .resp ⟨200, none, "pre \"videoId\":\"AAAAAAAAAAA\" post"⟩
    | .follow => .netError
  else .netError

/-- The network as observed in C1's witness scenario: verification fetch
fails with HTTP 500. -/
def c1WitnessOracle : NetOracle := fun url mode =>
  if url = ytLiveChannelUrl "UCwit" then
    match mode with
    | .manual => .resp ⟨200, none, "z \"videoId\":\"BBBBBBBBBBB\" z"⟩
    | .follow => .netError
  else if url = ytWatchUrl "BBBBBBBBBBB" then .resp ⟨500, none, "server error"⟩
  else .netError

/-- The network as observed in C5's witness scenario. -/
def c5Oracle : NetOracle := fun url mode =>
  if url = ytLiveChannelUrl "UCc5" then
    match mode with
    | .manual => .resp ⟨200, none, "x \"videoId\":\"AAAAAAAAAAA\" y"⟩
    | .follow => .netError
  else if url = ytWatchUrl "AAAAAAAAAAA" then .resp ⟨200, none, "plain watch page"⟩
  else .netError

/-- The batch environment of C6's failing input: both keys uncached, both
fetches succeed with HTTP 200 after 100 ms. -/
def c6Env : BatchEnv Nat :=
  ⟨fun k => if k = "a" then .resp 200 (some 1) else .resp 200 (some 2),
   fun _ => 100⟩

/-- The environment for the stale-fallback side observation: every fetch
fails with HTTP 500. -/
def c6StaleEnv : BatchEnv Nat := ⟨fun _ => .resp 500 none, fun _ => 100⟩

/-- The C8 counterexample tree: a viewer-phrase string candidate (`5`) is
collected first, then a later `runs` array holding a `null` element makes
`r.text` throw. -/
def c8Cex : Json :=
  .jobj [("a", .jstr "5 watching now"), ("b", .jobj [("runs", .jarr [.jnull])])]

/-! ### C9 — locale-grouped numeral extraction -/

/-- A single `[.,\s]\d{3}` group of a locale-grouped numeral. -/
structure SepBlock where
  sep : Char
  d1 : Char
  d2 : Char
  d3 : Char

def SepBlock.render (b : SepBlock) : List Char := [b.sep, b.d1, b.d2, b.d3]

def renderBlocks : List SepBlock → List Char
  | [] => []
  | b :: bs => b.render ++ renderBlocks bs

def blocksDigits : List SepBlock → List Char
  | [] => []
  | b :: bs => [b.d1, b.d2, b.d3] ++ blocksDigits bs

/-- Well-formedness of the groups: a separator followed by three digits. -/
def blocksWf (bs : List SepBlock) : Prop :=
  ∀ b ∈ bs, isSepChar b.sep = true ∧ isDigitChar b.d1 = true ∧
    isDigitChar b.d2 = true ∧ isDigitChar b.d3 = true

instance (bs : List SepBlock) : Decidable (blocksWf bs) := by
  unfold blocksWf
  infer_instance

def startsWithDigit : List Char → Bool
  | [] => false
  | c :: _ => isDigitChar c

def startsWithSepBlock : List Char → Bool
  | s :: a :: b :: c :: _ =>
    isSepChar s && isDigitChar a && isDigitChar b && isDigitChar c
  | _ => false

/-! ## Theorems for the claims -/

/-! ### C10 — `formatViewers` -/

/-- C10: `formatViewers` maps a `null` viewer count and a zero viewer count
to the same string `"0"`; counts ≥ 1,000,000 (below 2^53, the inputs a
double represents exactly) render as the IEEE754 quotient count/1,000,000
formatted by `toFixed(1)` with an `"M"` suffix, counts ≥ 1,000 (and
< 1,000,000) as the IEEE754 quotient count/1,000 formatted by `toFixed(1)`
with a `"K"` suffix, and all other positive counts as their plain decimal
string.  The rounding is the program's double rounding: 1150 renders
`"1.1K"` (the double nearest 1.15 falls below the decimal tie) while 1250
renders `"1.3K"` (1.25 is exact, the tie goes up). -/
theorem c10_formatViewers_rendering :
    formatViewers none = "0" ∧ formatViewers (some 0) = "0" ∧
    formatViewers none = formatViewers (some 0) ∧
    (∀ c : Nat, 1000000 ≤ c → c < 2 ^ 53 →
      formatViewers (some c) =
        jsToFixed1 (flGe1 c 1000000).1 (flGe1 c 1000000).2 ++ "M") ∧
    (∀ c : Nat, 1000 ≤ c → c < 1000000 →
      formatViewers (some c) =
        jsToFixed1 (flGe1 c 1000).1 (flGe1 c 1000).2 ++ "K") ∧
    (∀ c : Nat, 0 < c → c < 1000 → formatViewers (some c) = toString c) ∧
    formatViewers (some 1150) = "1.1K" ∧ formatViewers (some 1250) = "1.3K" ∧
    formatViewers (some 1450000) = "1.4M" := by
  refine ⟨rfl, rfl, rfl, ?_, ?_, ?_, by decide, by decide, by decide⟩
  · intro c hc hc53
    have h0 : ¬(c = 0) := by omega
    simp [formatViewers, h0, hc]
  · intro c hc hc2
    have h0 : ¬(c = 0) := by omega
    have h1 : ¬(1000000 ≤ c) := by omega
    simp [formatViewers, h0, h1, hc]
  · intro c hc hc2
    have h0 : ¬(c = 0) := by omega
    have h1 : ¬(1000000 ≤ c) := by omega
    have h2 : ¬(1000 ≤ c) := by omega
    simp [formatViewers, h0, h1, h2]

/-- Witness for C10 at concrete counts. -/
theorem c10_witness :
    formatViewers (some 2500000) = "2.5M" ∧ formatViewers (some 1500) = "1.5K" ∧
    formatViewers (some 7) = "7" := by
  obtain ⟨-, -, -, hM, hK, hP, -, -, -⟩ := c10_formatViewers_rendering
  exact ⟨(hM 2500000 (by decide) (by decide)).trans (by decide),
         (hK 1500 (by decide) (by decide)).trans (by decide),
         (hP 7 (by decide) (by decide)).trans (by decide)⟩

/-! ### C2 — error handling of `fetchVideoData` / `fetchChannelData` -/

/-- C2 counterexample: a network error (rejected `fetch`) with an existing
cache entry for the key propagates instead of returning the cached entry —
the claim predicts the entry `7` is returned. -/
theorem c2_counterexample :
    (fetchVideoData (α := Nat) .netError [("vid", (7, 0))] "vid" 50000).1 =
      .error .networkError ∧
    (fetchVideoData (α := Nat) .netError [("vid", (7, 0))] "vid" 50000).1 ≠ .ok 7 ∧
    (fetchChannelData (α := Nat) .netError [("channel:cid", (7, 0))] "cid" 50000).1 =
      .error .networkError := by
  refine ⟨rfl, ?_, rfl⟩
  decide

/-- C2 (amended): for both lookups, a 400 response always propagates as the
distinct invalid-identifier error (never masked by cached data); a non-2xx,
non-400 HTTP response returns the existing cache entry for the key — even an
expired one — when such an entry exists, and propagates when none exists;
a network error (rejected `fetch`) always propagates, even when a cache
entry exists. -/
theorem c2_staleCacheFallback (α : Type) :
    (∀ (cache : MetaCache α) (id : String) (now : Nat) (json : Option α),
      (fetchVideoData (.resp 400 json) cache id now).1 = .error (.invalidVideoId id)) ∧
    (∀ (cache : MetaCache α) (id : String) (now : Nat) (json : Option α),
      (fetchChannelData (.resp 400 json) cache id now).1 = .error (.invalidChannelId id)) ∧
    (∀ (cache : MetaCache α) (id : String) (now : Nat),
      (fetchVideoData .netError cache id now).1 = .error .networkError) ∧
    (∀ (cache : MetaCache α) (id : String) (now : Nat),
      (fetchChannelData .netError cache id now).1 = .error .networkError) ∧
    (∀ (cache : MetaCache α) (id : String) (now status : Nat) (json : Option α)
        (d : α) (ts : Nat),
      jsRespOk status = false → status ≠ 400 → cacheGet cache id = some (d, ts) →
      (fetchVideoData (.resp status json) cache id now).1 = .ok d) ∧
    (∀ (cache : MetaCache α) (id : String) (now status : Nat) (json : Option α)
        (d : α) (ts : Nat),
      jsRespOk status = false → status ≠ 400 →
      cacheGet cache ("channel:" ++ id) = some (d, ts) →
      (fetchChannelData (.resp status json) cache id now).1 = .ok d) ∧
    (∀ (cache : MetaCache α) (id : String) (now status : Nat) (json : Option α),
      jsRespOk status = false → status ≠ 400 → cacheGet cache id = none →
      (fetchVideoData (.resp status json) cache id now).1 = .error (.httpError status)) ∧
    (∀ (cache : MetaCache α) (id : String) (now status : Nat) (json : Option α),
      jsRespOk status = false → status ≠ 400 → cacheGet cache ("channel:" ++ id) = none →
      (fetchChannelData (.resp status json) cache id now).1 = .error (.httpError status)) := by
  refine ⟨?_, ?_, ?_, ?_, ?_, ?_, ?_, ?_⟩
  · intro cache id now json
    simp [fetchVideoData, jsRespOk]
  · intro cache id now json
    simp [fetchChannelData, jsRespOk]
  · intro cache id now
    simp [fetchVideoData]
  · intro cache id now
    simp [fetchChannelData]
  · intro cache id now status json d ts hok h400 hc
    simp [fetchVideoData, hok, h400, hc]
  · intro cache id now status json d ts hok h400 hc
    simp [fetchChannelData, hok, h400, hc]
  · intro cache id now status json hok h400 hc
    simp [fetchVideoData, hok, h400, hc]
  · intro cache id now status json hok h400 hc
    simp [fetchChannelData, hok, h400, hc]

/-- Witness for C2: the amended behavior at concrete inputs. -/
theorem c2_witness :
    (fetchVideoData (α := Nat) (.resp 400 none) [("v", (7, 0))] "v" 50000).1 =
      .error (.invalidVideoId "v") ∧
    (fetchVideoData (α := Nat) (.resp 503 none) [("v", (7, 0))] "v" 50000).1 = .ok 7 ∧
    (fetchVideoData (α := Nat) (.resp 503 none) [] "v" 0).1 = .error (.httpError 503) ∧
    (fetchChannelData (α := Nat) (.resp 503 none) [("channel:c", (9, 0))] "c" 50000).1 =
      .ok 9 := by
  obtain ⟨h400v, -, -, -, hstalev, hstalec, hmissv, -⟩ := c2_staleCacheFallback Nat
  refine ⟨h400v _ _ _ _, ?_, ?_, ?_⟩
  · exact hstalev [("v", (7, 0))] "v" 50000 503 none 7 0 (by decide) (by decide) (by decide)
  · exact hmissv [] "v" 0 503 none (by decide) (by decide) (by decide)
  · exact hstalec [("channel:c", (9, 0))] "c" 50000 503 none 9 0 (by decide) (by decide)
      (by decide)

/-! ### C7 — fresh-cache lookups -/

/-- C7: a lookup that finds a cache entry younger than the 30-second TTL
returns that entry's data immediately with no state change (hence no network
access); and after a cold lookup whose fetch succeeds, a second lookup of
the same key within the TTL window is served from cache, the two lookups
having triggered exactly one fetch (`nextPid` counts started fetches). -/
theorem c7_freshCacheHit :
    (∀ (α : Type) (s : Svc α) (k : String) (now : Nat) (d : α) (ts : Nat),
      cacheGet s.cache k = some (d, ts) → now - ts < CACHE_DURATION →
      getVideoMetadataStart s k now = (s, .cachedHit d)) ∧
    (∀ (k : String) (t0 t1 t2 : Nat) (data : Nat),
      t2 - t1 < CACHE_DURATION →
      (getVideoMetadataStart (svcInit (α := Nat)) k t0).2 = .started 0 ∧
      ((videoFetchComplete (getVideoMetadataStart (svcInit (α := Nat)) k t0).1 k
          (.resp 200 (some data)) t1).2 = .ok data) ∧
      (getVideoMetadataStart
          (videoFetchComplete (getVideoMetadataStart (svcInit (α := Nat)) k t0).1 k
            (.resp 200 (some data)) t1).1 k t2).2 = .cachedHit data ∧
      (getVideoMetadataStart
          (videoFetchComplete (getVideoMetadataStart (svcInit (α := Nat)) k t0).1 k
            (.resp 200 (some data)) t1).1 k t2).1.nextPid = 1) := by
  constructor
  · intro α s k now d ts hc hfresh
    simp [getVideoMetadataStart, metaLookupStart, hc, hfresh]
  · intro k t0 t1 t2 data hfresh
    refine ⟨rfl, ?_, ?_, ?_⟩
    · simp [getVideoMetadataStart, metaLookupStart, svcInit, cacheGet, pendGet,
        videoFetchComplete, fetchVideoData, jsRespOk, cacheSet, pendSet, pendDel]
    · simp [getVideoMetadataStart, metaLookupStart, svcInit, cacheGet, pendGet,
        videoFetchComplete, fetchVideoData, jsRespOk, cacheSet, pendSet, pendDel,
        List.find?, hfresh]
    · simp [getVideoMetadataStart, metaLookupStart, svcInit, cacheGet, pendGet,
        videoFetchComplete, fetchVideoData, jsRespOk, cacheSet, pendSet, pendDel,
        List.find?, hfresh]

/-- Witness for C7 at a concrete state and clock values. -/
theorem c7_witness :
    getVideoMetadataStart (α := Nat) ⟨[("k", (5, 100))], [], 3⟩ "k" 20000 =
      (⟨[("k", (5, 100))], [], 3⟩, .cachedHit 5) ∧
    (getVideoMetadataStart
        (videoFetchComplete (getVideoMetadataStart (svcInit (α := Nat)) "k" 0).1 "k"
          (.resp 200 (some 5)) 10).1 "k" 20).2 = .cachedHit 5 := by
  constructor
  · exact c7_freshCacheHit.1 Nat ⟨[("k", (5, 100))], [], 3⟩ "k" 20000 5 100 (by decide)
      (by decide)
  · exact ((c7_freshCacheHit.2 "k" 0 10 20 5 (by decide)).2.2).1

/-! ### C3 — single flight -/

theorem pendGet_pendSet_self (p : List (String × Nat)) (k : String) (pid : Nat) :
    pendGet (pendSet p k pid) k = some pid := by
  induction p with
  | nil => simp [pendSet, pendGet]
  | cons hd t ih =>
    obtain ⟨k0, v0⟩ := hd
    by_cases hk : k0 = k
    · subst hk
      simp [pendSet, pendGet]
    · simp [pendSet, pendGet, List.find?_cons, hk]
      simpa [pendGet] using ih

theorem pendGet_pendDel_self (p : List (String × Nat)) (k : String) :
    pendGet (pendDel p k) k = none := by
  induction p with
  | nil => simp [pendDel, pendGet]
  | cons hd t ih =>
    obtain ⟨k0, v0⟩ := hd
    by_cases hk : k0 = k
    · simp [pendDel, pendGet, hk] at ih ⊢
    · simp [pendDel, pendGet, List.find?_cons, hk] at ih ⊢

theorem pendGet_cons (k0 : String) (v0 : Nat) (t : List (String × Nat)) (k : String) :
    pendGet ((k0, v0) :: t) k = if k0 = k then some v0 else pendGet t k := by
  by_cases hk : k0 = k <;> simp [pendGet, List.find?_cons, hk]

theorem pendGet_none_not_mem {p : List (String × Nat)} {k : String}
    (h : pendGet p k = none) : k ∉ p.map Prod.fst := by
  induction p with
  | nil => simp
  | cons hd t ih =>
    obtain ⟨k0, v0⟩ := hd
    rw [pendGet_cons] at h
    by_cases hk : k0 = k
    · simp [hk] at h
    · simp [hk] at h ⊢
      refine ⟨fun hkk => hk hkk.symm, ?_⟩
      intro x hx
      exact ih h (List.mem_map.mpr ⟨(k, x), hx, rfl⟩)

theorem pendSet_keys_append {p : List (String × Nat)} {k : String} (pid : Nat)
    (h : pendGet p k = none) :
    (pendSet p k pid).map Prod.fst = p.map Prod.fst ++ [k] := by
  induction p with
  | nil => simp [pendSet]
  | cons hd t ih =>
    obtain ⟨k0, v0⟩ := hd
    rw [pendGet_cons] at h
    by_cases hk : k0 = k
    · simp [hk] at h
    · simp [hk] at h
      simp [pendSet, hk, ih h]

theorem nodup_keys_pendDel {p : List (String × Nat)} (k : String)
    (h : (p.map Prod.fst).Nodup) : ((pendDel p k).map Prod.fst).Nodup :=
  h.sublist ((List.filter_sublist p).map Prod.fst)

theorem metaLookupStart_pending_cases {α : Type} (s : Svc α) (key : String) (now : Nat) :
    (metaLookupStart s key now).1.pending = s.pending ∨
    (pendGet s.pending key = none ∧
      (metaLookupStart s key now).1.pending = pendSet s.pending key s.nextPid) := by
  unfold metaLookupStart
  rcases cacheGet s.cache key with _ | ⟨d, ts⟩
  · rcases hp : pendGet s.pending key with _ | pid <;> simp [hp]
  · by_cases hfresh : now - ts < CACHE_DURATION
    · simp [hfresh]
    · rcases hp : pendGet s.pending key with _ | pid <;> simp [hp, hfresh]

theorem nodup_keys_after_lookup {α : Type} (s : Svc α) (key : String) (now : Nat)
    (h : pendingKeysUnique s) : pendingKeysUnique (metaLookupStart s key now).1 := by
  rcases metaLookupStart_pending_cases s key now with h2 | ⟨hp, h2⟩
  · unfold pendingKeysUnique
    rw [h2]
    exact h
  · unfold pendingKeysUnique
    rw [h2, pendSet_keys_append s.nextPid hp, List.nodup_append]
    refine ⟨h, List.nodup_singleton _, ?_⟩
    intro x hx hx2
    simp at hx2
    subst hx2
    exact pendGet_none_not_mem hp hx

theorem svcStep_preserves_unique {α : Type} (s : Svc α) (ev : SvcEv α)
    (h : pendingKeysUnique s) : pendingKeysUnique (svcStep s ev) := by
  cases ev with
  | videoArrive id t => exact nodup_keys_after_lookup s id t h
  | channelArrive id t => exact nodup_keys_after_lookup s ("channel:" ++ id) t h
  | videoDone id up t =>
    unfold pendingKeysUnique svcStep videoFetchComplete
    exact nodup_keys_pendDel id h
  | channelDone id up t =>
    unfold pendingKeysUnique svcStep channelFetchComplete
    exact nodup_keys_pendDel _ h

theorem svcRun_preserves_unique {α : Type} (evs : List (SvcEv α)) :
    ∀ s : Svc α, pendingKeysUnique s → pendingKeysUnique (svcRun s evs) := by
  induction evs with
  | nil => exact fun s h => h
  | cons ev rest ih =>
    intro s h
    exact ih (svcStep s ev) (svcStep_preserves_unique s ev h)

theorem metaLookupStart_fresh_none {α : Type} (s : Svc α) (key : String) (now : Nat)
    (hc : cacheGet s.cache key = none) (hp : pendGet s.pending key = none) :
    metaLookupStart s key now =
      ({ s with pending := pendSet s.pending key s.nextPid, nextPid := s.nextPid + 1 },
       .started s.nextPid) := by
  simp [metaLookupStart, hc, hp]

theorem metaLookupStart_joins {α : Type} (s : Svc α) (key : String) (now : Nat)
    (pid : Nat) (hc : cacheGet s.cache key = none) (hp : pendGet s.pending key = some pid) :
    metaLookupStart s key now = (s, .joined pid) := by
  simp [metaLookupStart, hc, hp]

theorem runArrivals_all_join {α : Type} (n : Nat) (s : Svc α) (k : String) (now : Nat)
    (pid : Nat) (hc : cacheGet s.cache k = none) (hp : pendGet s.pending k = some pid) :
    runArrivals s k now n = (s, List.replicate n (.joined pid)) := by
  induction n with
  | zero => rfl
  | succ m ih =>
    simp [runArrivals, getVideoMetadataStart, metaLookupStart_joins s k now pid hc hp, ih,
      List.replicate_succ]

/-- C3: at most one pending request per key exists at any time (the pending
map's keys stay duplicate-free under every event sequence); `n + 1`
back-to-back lookups for an uncached, un-pending key start exactly one fetch
(the first caller) and all the others join that same promise; every one of
those callers observes that single promise's settlement; and completion
deregisters the pending entry unconditionally — whatever the upstream
outcome, success or failure — for both the video and the channel path. -/
theorem c3_singleFlightCoalescing :
    (∀ (α : Type) (evs : List (SvcEv α)), pendingKeysUnique (svcRun svcInit evs)) ∧
    (∀ (α : Type) (s : Svc α) (k : String) (now n : Nat),
      cacheGet s.cache k = none → pendGet s.pending k = none →
      (runArrivals s k now (n + 1)).2 =
        .started s.nextPid :: List.replicate n (.joined s.nextPid) ∧
      (runArrivals s k now (n + 1)).1.nextPid = s.nextPid + 1 ∧
      pendGet (runArrivals s k now (n + 1)).1.pending k = some s.nextPid) ∧
    (∀ (α : Type) (s : Svc α) (k : String) (now n : Nat)
        (settle : Nat → Except SvcErr α),
      cacheGet s.cache k = none → pendGet s.pending k = none →
      ∀ o ∈ (runArrivals s k now (n + 1)).2, callerResult settle o = settle s.nextPid) ∧
    (∀ (α : Type) (s : Svc α) (k : String) (up : Upstream α) (now : Nat),
      pendGet ((videoFetchComplete s k up now).1.pending) k = none ∧
      pendGet ((channelFetchComplete s k up now).1.pending) ("channel:" ++ k) = none) := by
  have key2 : ∀ (α : Type) (s : Svc α) (k : String) (now n : Nat),
      cacheGet s.cache k = none → pendGet s.pending k = none →
      (runArrivals s k now (n + 1)).2 =
        .started s.nextPid :: List.replicate n (.joined s.nextPid) ∧
      (runArrivals s k now (n + 1)).1.nextPid = s.nextPid + 1 ∧
      pendGet (runArrivals s k now (n + 1)).1.pending k = some s.nextPid := by
    intro α s k now n hc hp
    have hstart := metaLookupStart_fresh_none s k now hc hp
    have hjoin := runArrivals_all_join n
      ({ s with pending := pendSet s.pending k s.nextPid, nextPid := s.nextPid + 1 })
      k now s.nextPid hc (pendGet_pendSet_self s.pending k s.nextPid)
    simp [runArrivals, getVideoMetadataStart, hstart, hjoin,
      pendGet_pendSet_self]
  refine ⟨?_, key2, ?_, ?_⟩
  · intro α evs
    exact svcRun_preserves_unique evs svcInit (by simp [pendingKeysUnique, svcInit])
  · intro α s k now n settle hc hp o ho
    rw [(key2 α s k now n hc hp).1] at ho
    rcases List.mem_cons.mp ho with ho | ho
    · rw [ho]
      rfl
    · rw [List.eq_of_mem_replicate ho]
      rfl
  · intro α s k up now
    exact ⟨pendGet_pendDel_self _ _, pendGet_pendDel_self _ _⟩

/-- Witness for C3 at a concrete event sequence and three concurrent
lookups. -/
theorem c3_witness :
    pendingKeysUnique (svcRun (svcInit (α := Nat))
      [.videoArrive "k" 0, .videoArrive "k" 0, .videoDone "k" .netError 5,
       .channelArrive "c" 6]) ∧
    (runArrivals (svcInit (α := Nat)) "k" 0 3).2 =
      [.started 0, .joined 0, .joined 0] ∧
    (∀ o ∈ (runArrivals (svcInit (α := Nat)) "k" 0 3).2,
      callerResult (fun _ => .ok 42) o = .ok 42) ∧
    pendGet ((videoFetchComplete (α := Nat) ⟨[], [("k", 0)], 1⟩ "k" .netError 7).1.pending)
      "k" = none := by
  refine ⟨c3_singleFlightCoalescing.1 Nat _, ?_, ?_,
    (c3_singleFlightCoalescing.2.2.2 Nat ⟨[], [("k", 0)], 1⟩ "k" .netError 7).1⟩
  · simpa using
      (c3_singleFlightCoalescing.2.1 Nat svcInit "k" 0 2 (by decide) (by decide)).1
  · intro o ho
    exact c3_singleFlightCoalescing.2.2.1 Nat svcInit "k" 0 2 (fun _ => .ok 42)
      (by decide) (by decide) o ho

/-! ### C4 — authoritative redirect -/

/-- C4: if the manual-redirect request returns a 3xx response whose
`Location` header contains an 11-character video id (`v=` query parameter or
`watch?v=` fragment, as captured by `locVideoId`), resolution returns that
id immediately and the step-1 request is the only fetch performed — in
particular no verification fetch of the video's own watch page happens. -/
theorem c4_redirectIsAuthoritative (o : NetOracle) (cid : String) (r : HttpResp)
    (loc vid : String)
    (ho : o (ytLiveChannelUrl cid) .manual = .resp r)
    (h3 : 300 ≤ r.status) (h4 : r.status < 400)
    (hloc : r.location = some loc)
    (hvid : locVideoId loc = some vid) :
    resolveLiveVideoIdStrictT o cid =
      (.ok (some vid), [(ytLiveChannelUrl cid, .manual)]) := by
  have hok : jsRespOk r.status = false := by
    simp only [jsRespOk]
    simp only [Bool.and_eq_false_iff, decide_eq_false_iff_not, not_lt]
    omega
  simp [resolveLiveVideoIdStrictT, fetchText, ho, hok, hloc, hvid, h3, h4]

/-- Witness for C4: the spec's scenario, with the single-fetch trace. -/
theorem c4_witness :
    resolveLiveVideoIdStrictT c4Oracle "UCabc" =
      (.ok (some "XYZ12345678"), [(ytLiveChannelUrl "UCabc", .manual)]) :=
  c4_redirectIsAuthoritative c4Oracle "UCabc"
    ⟨303, some "https://www.youtube.com/watch?v=XYZ12345678", ""⟩
    "https://www.youtube.com/watch?v=XYZ12345678" "XYZ12345678"
    (by decide) (by decide) (by decide) (by decide) (by decide)

/-! ### C1 — failure semantics of the verification fetch -/

/-- C1 counterexample: resolution for `"UCcex"` reaches step 4 (the trace
shows the verification fetch of the candidate's watch page was attempted),
the verification fetch fails, and the failure propagates to the caller —
`NotLive` (`.ok none`) is not returned, contrary to the claim. -/
theorem c1_counterexample :
    resolveLiveVideoIdStrict c1Oracle "UCcex" = .error .network ∧
    resolveLiveVideoIdStrict c1Oracle "UCcex" ≠ .ok none ∧
    (resolveLiveVideoIdStrictT c1Oracle "UCcex").2 =
      [(ytLiveChannelUrl "UCcex", .manual), (ytWatchUrl "AAAAAAAAAAA", .follow)] :=
  ⟨by decide, by decide, by decide⟩

/-- C1 (amended): a network failure during the step-1 channel request
propagates as a hard failure, and a failure of the step-4 verification fetch
(network error, or an HTTP status outside 2xx/3xx — exactly what makes
`fetchText` throw) equally propagates as a hard failure to the caller
rather than being converted to NotLive. -/
theorem c1_verificationFailurePropagates :
    (∀ (o : NetOracle) (cid : String),
      o (ytLiveChannelUrl cid) .manual = .netError →
      resolveLiveVideoIdStrict o cid = .error .network) ∧
    (∀ (o : NetOracle) (cid : String) (r : HttpResp) (cand : List Char) (e : FetchErr),
      o (ytLiveChannelUrl cid) .manual = .resp r →
      jsRespOk r.status = true → r.body ≠ "" →
      matchVideoIdLitL r.body.data = some cand →
      fetchText o (ytWatchUrl (String.mk cand)) .follow = .error e →
      resolveLiveVideoIdStrict o cid = .error e) := by
  constructor
  · intro o cid ho
    simp [resolveLiveVideoIdStrict, resolveLiveVideoIdStrictT, fetchText, ho]
  · intro o cid r cand e ho hok hbody hcand hw
    have h300 : ¬(300 ≤ r.status) := by
      simp only [jsRespOk, Bool.and_eq_true, decide_eq_true_eq] at hok
      omega
    have hstep1 : fetchText o (ytLiveChannelUrl cid) .manual = .ok (r, r.body) := by
      simp [fetchText, ho, hok, h300]
    simp [resolveLiveVideoIdStrict, resolveLiveVideoIdStrictT, hstep1, h300,
      resolveFromHtml, hbody, hcand, hw]

/-- Witness for C1's amended statement at concrete oracles. -/
theorem c1_witness :
    resolveLiveVideoIdStrict c1WitnessOracle "UCwit" = .error (.httpStatus 500) ∧
    resolveLiveVideoIdStrict (fun _ _ => .netError) "UCnet" = .error .network := by
  constructor
  · exact c1_verificationFailurePropagates.2 c1WitnessOracle "UCwit"
      ⟨200, none, "z \"videoId\":\"BBBBBBBBBBB\" z"⟩ "BBBBBBBBBBB".data
      (.httpStatus 500) (by decide) (by decide) (by decide) (by decide) (by decide)
  · exact c1_verificationFailurePropagates.1 _ "UCnet" rfl

/-! ### C5 — unverified candidates are NotLive -/

/-- C5: whenever the channel page HTML (obtained either directly from a 2xx
manual response, or from the follow-up request after an unusable 3xx
response) contains a `"videoId":"<id>"` literal, but the candidate's own
watch-page HTML carries none of the live indicators
(`isLiveNowFromHtml = false`), resolution returns NotLive (`.ok none`). -/
theorem c5_unverifiedCandidateIsNotLive (o : NetOracle) (cid : String) (html : String)
    (cand : List Char) (w : HttpResp)
    (hstep1 :
      (∃ r : HttpResp, o (ytLiveChannelUrl cid) .manual = .resp r ∧
        jsRespOk r.status = true ∧ r.body = html) ∨
      (∃ r r2 : HttpResp, o (ytLiveChannelUrl cid) .manual = .resp r ∧
        300 ≤ r.status ∧ r.status < 400 ∧ r.location = none ∧
        o (ytLiveChannelUrl cid) .follow = .resp r2 ∧ jsRespOk r2.status = true ∧
        r2.body = html))
    (hhtml : html ≠ "")
    (hcand : matchVideoIdLitL html.data = some cand)
    (hw : o (ytWatchUrl (String.mk cand)) .follow = .resp w)
    (hwok : jsRespOk w.status = true)
    (hlive : isLiveNowFromHtml w.body = false) :
    resolveLiveVideoIdStrict o cid = .ok none := by
  have hw300 : ¬(300 ≤ w.status) := by
    simp only [jsRespOk, Bool.and_eq_true, decide_eq_true_eq] at hwok
    omega
  have hwatch : fetchText o (ytWatchUrl (String.mk cand)) .follow = .ok (w, w.body) := by
    simp [fetchText, hw, hwok, hw300]
  have hcore : ∀ calls, (resolveFromHtml o calls html).1 = .ok none := by
    intro calls
    simp [resolveFromHtml, hhtml, hcand, hwatch, hlive]
  rcases hstep1 with ⟨r, ho, hok, hbody⟩ | ⟨r, r2, ho, h3, h4, hloc, ho2, hok2, hbody2⟩
  · have h300 : ¬(300 ≤ r.status) := by
      simp only [jsRespOk, Bool.and_eq_true, decide_eq_true_eq] at hok
      omega
    have hfetch1 : fetchText o (ytLiveChannelUrl cid) .manual = .ok (r, r.body) := by
      simp [fetchText, ho, hok, h300]
    subst hbody
    simp [resolveLiveVideoIdStrict, resolveLiveVideoIdStrictT, hfetch1, h300,
      hhtml, hcore]
  · have hok2' : ¬(300 ≤ r2.status) := by
      simp only [jsRespOk, Bool.and_eq_true, decide_eq_true_eq] at hok2
      omega
    have hokr : jsRespOk r.status = false := by
      simp only [jsRespOk]
      simp only [Bool.and_eq_false_iff, decide_eq_false_iff_not, not_lt]
      omega
    have hfetch1 : fetchText o (ytLiveChannelUrl cid) .manual = .ok (r, "") := by
      simp [fetchText, hokr, ho, h3, h4]
    have hfetch2 : fetchText o (ytLiveChannelUrl cid) .follow = .ok (r2, r2.body) := by
      simp [fetchText, ho2, hok2, hok2']
    subst hbody2
    simp [resolveLiveVideoIdStrict, resolveLiveVideoIdStrictT, hfetch1, hfetch2, h3, h4,
      hloc, hcore]

/-- Witness for C5: a scraped candidate whose watch page shows no live
indicator resolves to NotLive. -/
theorem c5_witness : resolveLiveVideoIdStrict c5Oracle "UCc5" = .ok none :=
  c5_unverifiedCandidateIsNotLive c5Oracle "UCc5" "x \"videoId\":\"AAAAAAAAAAA\" y"
    "AAAAAAAAAAA".data ⟨200, none, "plain watch page"⟩
    (Or.inl ⟨⟨200, none, "x \"videoId\":\"AAAAAAAAAAA\" y"⟩, by decide, by decide, rfl⟩)
    (by decide) (by decide) (by decide) (by decide) (by decide)

/-! ### C6 — the inter-item batch delay -/

/-- C6 (the code evaluated at the failing input): in both sequential batch
loops, after the cold (uncached) fetch of `"a"` succeeds, the 500 ms delay
is NOT inserted — the `wasCached` check runs after the fetch has just
written a fresh cache entry for the key, so it passes on every successful
cold-fetch path.  The per-item delay flags are `false` and the final clock
reads 200 (two 100 ms fetches, no delay), where the claim requires a
≈500 ms delay after `"a"`.  The delay does run when the preceding item was
served by the stale-cache fallback (last conjunct: an expired entry
returned after an upstream 500), the only successful path that leaves no
fresh entry. -/
theorem c6_delaySkippedAfterColdFetch :
    (getChannelsMetadataFallback c6Env ["a", "b"] svcInit 0).2.2.2 =
      [("a", false), ("b", false)] ∧
    (getChannelsMetadataFallback c6Env ["a", "b"] svcInit 0).2.1 = 200 ∧
    (getVideosMetadata c6Env ["a", "b"] svcInit 0).2.2.2 =
      [("a", false), ("b", false)] ∧
    (getVideosMetadata c6Env ["a", "b"] svcInit 0).2.1 = 200 ∧
    (getChannelsMetadataFallback c6StaleEnv ["a", "b"]
        ⟨[("channel:a", (9, 0))], [], 0⟩ 50000).2.2.2 =
      [("a", true), ("b", false)] :=
  ⟨by decide, by decide, by decide, by decide, by decide⟩

/-! ### C8 — `deepPickConcurrentViewers` -/

theorem vcRunText_ok {r : Json} {t : String} (h : vcRunText r = .ok t) :
    specVcRunText r = t := by
  cases r <;> simp [vcRunText, specVcRunText] at h ⊢ <;> simp [← h]

theorem runTextVal_ok {r : Json} {v : Option Json} (h : runTextVal r = .ok v) :
    specRunTextVal r = v := by
  cases r <;> simp [runTextVal, specRunTextVal] at h ⊢ <;> simp [← h]

theorem vcRunTexts_ok : ∀ (rs : List Json) (ts : List String),
    vcRunTexts rs = .ok ts → specVcRunTexts rs = ts
  | [], ts, h => by
    simp only [vcRunTexts, Except.ok.injEq] at h
    simp [specVcRunTexts, ← h]
  | r :: rs, ts, h => by
    cases hr : vcRunText r with
    | error e => simp [vcRunTexts, hr] at h
    | ok t =>
      cases hrs : vcRunTexts rs with
      | error e => simp [vcRunTexts, hr, hrs] at h
      | ok ts2 =>
        simp only [vcRunTexts, hr, hrs, Except.ok.injEq] at h
        simp [specVcRunTexts, vcRunText_ok hr, vcRunTexts_ok rs ts2 hrs, ← h]

theorem runTextStrs_ok : ∀ (rs : List Json) (ts : List String),
    runTextStrs rs = .ok ts → specRunStrs rs = ts
  | [], ts, h => by
    simp only [runTextStrs, Except.ok.injEq] at h
    simp [specRunStrs, ← h]
  | r :: rs, ts, h => by
    cases hr : runTextVal r with
    | error e => simp [runTextStrs, hr] at h
    | ok v =>
      cases hrs : runTextStrs rs with
      | error e => simp [runTextStrs, hr, hrs] at h
      | ok ts2 =>
        simp only [runTextStrs, hr, hrs, Except.ok.injEq] at h
        simp [specRunStrs, runTextVal_ok hr, runTextStrs_ok rs ts2 hrs, ← h]

theorem vcRunsPart_ok {fields : List (String × Json)} {t : List Nat}
    (h : vcRunsPartE fields = .ok t) : vcRunsPartS fields = t := by
  unfold vcRunsPartE at h
  unfold vcRunsPartS
  cases hj : jfieldOpt (lookupField "viewCount" fields) "runs" with
  | none =>
    rw [hj] at h
    simp_all
  | some vj =>
    rw [hj] at h
    cases vj with
    | jarr rs =>
      simp at h ⊢
      cases hts : vcRunTexts rs with
      | error e => simp [hts] at h
      | ok ts =>
        rw [hts] at h
        simp at h
        rw [vcRunTexts_ok rs ts hts]
        exact h
    | jnull => simp_all
    | jbool b => simp_all
    | jnum a b => simp_all
    | jstr s2 => simp_all
    | jobj f2 => simp_all

theorem runsPart_ok {fields : List (String × Json)} {t : List Nat}
    (h : runsPartE fields = .ok t) : runsPartS fields = t := by
  unfold runsPartE at h
  unfold runsPartS
  cases hj : lookupField "runs" fields with
  | none =>
    rw [hj] at h
    simp_all
  | some vj =>
    rw [hj] at h
    cases vj with
    | jarr rs =>
      simp at h ⊢
      cases hts : runTextStrs rs with
      | error e => simp [hts] at h
      | ok ts =>
        rw [hts] at h
        simp at h
        rw [runTextStrs_ok rs ts hts]
        exact h
    | jnull => simp_all
    | jbool b => simp_all
    | jnum a b => simp_all
    | jstr s2 => simp_all
    | jobj f2 => simp_all

mutual

theorem walkJson_ok_spec : ∀ (j : Json) (l : List Nat),
    walkJson j = .ok l → specCandidates j = l
  | .jobj fields, l, h => by
    cases h1 : vcRunsPartE fields with
    | error e => simp [walkJson, h1] at h
    | ok p1 =>
      cases h3 : runsPartE fields with
      | error e => simp [walkJson, h1, h3] at h
      | ok p3 =>
        cases h4 : walkFields fields with
        | error e => simp [walkJson, h1, h3, h4] at h
        | ok p4 =>
          simp only [walkJson, h1, h3, h4, Except.ok.injEq] at h
          rw [specCandidates, vcRunsPart_ok h1, runsPart_ok h3,
            walkFields_ok_spec fields p4 h4, h]
  | .jarr es, l, h => by
    simp only [walkJson] at h
    rw [specCandidates]
    exact walkElems_ok_spec es l h
  | .jnull, l, h => by
    simp only [walkJson, Except.ok.injEq] at h
    simp [specCandidates, ← h]
  | .jbool b, l, h => by
    simp only [walkJson, Except.ok.injEq] at h
    simp [specCandidates, ← h]
  | .jnum a b, l, h => by
    simp only [walkJson, Except.ok.injEq] at h
    simp [specCandidates, ← h]
  | .jstr s2, l, h => by
    simp only [walkJson, Except.ok.injEq] at h
    simp [specCandidates, ← h]

theorem walkFields_ok_spec : ∀ (fs : List (String × Json)) (l : List Nat),
    walkFields fs = .ok l → specFieldCandidates fs = l
  | [], l, h => by
    simp only [walkFields, Except.ok.injEq] at h
    simp [specFieldCandidates, ← h]
  | (k, v) :: fs, l, h => by
    cases v with
    | jobj f2 =>
      cases hh : walkJson (.jobj f2) with
      | error e => simp [walkFields, hh] at h
      | ok here =>
        cases ht : walkFields fs with
        | error e => simp [walkFields, hh, ht] at h
        | ok rest =>
          simp only [walkFields, hh, ht, Except.ok.injEq] at h
          simp only [specFieldCandidates]
          rw [walkJson_ok_spec (.jobj f2) here hh, walkFields_ok_spec fs rest ht, h]
    | jarr es2 =>
      cases hh : walkJson (.jarr es2) with
      | error e => simp [walkFields, hh] at h
      | ok here =>
        cases ht : walkFields fs with
        | error e => simp [walkFields, hh, ht] at h
        | ok rest =>
          simp only [walkFields, hh, ht, Except.ok.injEq] at h
          simp only [specFieldCandidates]
          rw [walkJson_ok_spec (.jarr es2) here hh, walkFields_ok_spec fs rest ht, h]
    | jstr s2 =>
      cases ht : walkFields fs with
      | error e => simp [walkFields, ht] at h
      | ok rest =>
        simp only [walkFields, ht, Except.ok.injEq] at h
        simp only [specFieldCandidates]
        rw [walkFields_ok_spec fs rest ht, h]
    | jnull =>
      cases ht : walkFields fs with
      | error e => simp [walkFields, ht] at h
      | ok rest =>
        simp only [walkFields, ht, Except.ok.injEq] at h
        simp only [specFieldCandidates]
        rw [walkFields_ok_spec fs rest ht, h]
    | jbool b =>
      cases ht : walkFields fs with
      | error e => simp [walkFields, ht] at h
      | ok rest =>
        simp only [walkFields, ht, Except.ok.injEq] at h
        simp only [specFieldCandidates]
        rw [walkFields_ok_spec fs rest ht, h]
    | jnum a b =>
      cases ht : walkFields fs with
      | error e => simp [walkFields, ht] at h
      | ok rest =>
        simp only [walkFields, ht, Except.ok.injEq] at h
        simp only [specFieldCandidates]
        rw [walkFields_ok_spec fs rest ht, h]

theorem walkElems_ok_spec : ∀ (es : List Json) (l : List Nat),
    walkElems es = .ok l → specElemCandidates es = l
  | [], l, h => by
    simp only [walkElems, Except.ok.injEq] at h
    simp [specElemCandidates, ← h]
  | v :: vs, l, h => by
    cases v with
    | jobj f2 =>
      cases hh : walkJson (.jobj f2) with
      | error e => simp [walkElems, hh] at h
      | ok here =>
        cases ht : walkElems vs with
        | error e => simp [walkElems, hh, ht] at h
        | ok rest =>
          simp only [walkElems, hh, ht, Except.ok.injEq] at h
          simp only [specElemCandidates]
          rw [walkJson_ok_spec (.jobj f2) here hh, walkElems_ok_spec vs rest ht, h]
    | jarr es2 =>
      cases hh : walkJson (.jarr es2) with
      | error e => simp [walkElems, hh] at h
      | ok here =>
        cases ht : walkElems vs with
        | error e => simp [walkElems, hh, ht] at h
        | ok rest =>
          simp only [walkElems, hh, ht, Except.ok.injEq] at h
          simp only [specElemCandidates]
          rw [walkJson_ok_spec (.jarr es2) here hh, walkElems_ok_spec vs rest ht, h]
    | jstr s2 =>
      cases ht : walkElems vs with
      | error e => simp [walkElems, ht] at h
      | ok rest =>
        simp only [walkElems, ht, Except.ok.injEq] at h
        simp only [specElemCandidates]
        rw [walkElems_ok_spec vs rest ht, h]
    | jnull =>
      cases ht : walkElems vs with
      | error e => simp [walkElems, ht] at h
      | ok rest =>
        simp only [walkElems, ht, Except.ok.injEq] at h
        simp only [specElemCandidates]
        rw [walkElems_ok_spec vs rest ht, h]
    | jbool b =>
      cases ht : walkElems vs with
      | error e => simp [walkElems, ht] at h
      | ok rest =>
        simp only [walkElems, ht, Except.ok.injEq] at h
        simp only [specElemCandidates]
        rw [walkElems_ok_spec vs rest ht, h]
    | jnum a b =>
      cases ht : walkElems vs with
      | error e => simp [walkElems, ht] at h
      | ok rest =>
        simp only [walkElems, ht, Except.ok.injEq] at h
        simp only [specElemCandidates]
        rw [walkElems_ok_spec vs rest ht, h]

end

/-- C8 counterexample: the claim predicts the first collected non-negative
finite candidate, `5`; the code returns `null` because the thrown
`TypeError` discards the already-collected candidates. -/
theorem c8_counterexample :
    deepPickConcurrentViewers c8Cex = none ∧
    (specCandidates c8Cex).find? viewerCandOk = some 5 :=
  ⟨by decide, by decide⟩

/-- C8 (amended): when the traversal raises no internal `TypeError` (no
`null` element inside a visited `runs` array), `deepPickConcurrentViewers`
returns the first non-negative finite candidate of the claim's DFS
collection (`specCandidates`, per node: `viewCount.runs` concatenation,
then `viewCount.simpleText`, then a `runs[]` array whose joined text
matches a viewer phrase, then string fields matching the phrase, in key
encounter order), or `null` if there is none; when the traversal throws,
it returns `null` regardless of candidates collected before the throw.  It
never throws; in particular, on
`⦃viewCount: ⦃simpleText: "1,234 watching now"⦄⦄` it returns `1234`. -/
theorem c8_firstCandidateOrNull :
    (∀ j : Json,
      deepPickConcurrentViewers j =
        match walkJson j with
        | .ok _ => (specCandidates j).find? viewerCandOk
        | .error _ => none) ∧
    deepPickConcurrentViewers
      (.jobj [("viewCount", .jobj [("simpleText", .jstr "1,234 watching now")])]) =
      some 1234 := by
  constructor
  · intro j
    cases hw : walkJson j with
    | error e => simp [deepPickConcurrentViewers, hw]
    | ok l => simp [deepPickConcurrentViewers, hw, walkJson_ok_spec j l hw]
  · decide

theorem sep_not_digit {c : Char} (h : isSepChar c = true) : isDigitChar c = false := by
  simp [isSepChar, isJsSpaceChar] at h
  simp [isDigitChar]
  omega

theorem digit_not_sep {c : Char} (h : isDigitChar c = true) : isSepChar c = false := by
  simp [isDigitChar] at h
  simp [isSepChar, isJsSpaceChar]
  omega

theorem takeDigits_stop (n : Nat) (cs : List Char) (h : startsWithDigit cs = false) :
    takeDigitsUpTo n cs = ([], cs) := by
  cases n with
  | zero => rfl
  | succ m =>
    cases cs with
    | nil => rfl
    | cons c t =>
      simp only [startsWithDigit] at h
      simp [takeDigitsUpTo, h]

theorem takeGroups_stop (cs : List Char) (h : startsWithSepBlock cs = false) :
    takeGroups cs = ([], cs) := by
  match cs with
  | [] => rfl
  | [a] => rfl
  | [a, b] => rfl
  | [a, b, c] => rfl
  | a :: b :: c :: d :: t =>
    simp only [startsWithSepBlock] at h
    simp [takeGroups, h]

theorem takeGroups_blocks : ∀ (bs : List SepBlock) (suffix : List Char),
    blocksWf bs → startsWithSepBlock suffix = false →
    takeGroups (renderBlocks bs ++ suffix) = (renderBlocks bs, suffix)
  | [], suffix, _, hs => by
    simp only [renderBlocks, List.nil_append]
    exact takeGroups_stop suffix hs
  | b :: bs, suffix, hwf, hs => by
    obtain ⟨hsep, h1, h2, h3⟩ := hwf b (List.mem_cons_self b bs)
    have ih := takeGroups_blocks bs suffix (fun x hx => hwf x (List.mem_cons_of_mem b hx)) hs
    simp [renderBlocks, SepBlock.render, takeGroups, hsep, h1, h2, h3, ih]

theorem matchNumeralAt_grouped (lead : List Char) (bs : List SepBlock)
    (suffix : List Char) (hne : lead ≠ []) (hlen : lead.length ≤ 3)
    (hdig : ∀ c ∈ lead, isDigitChar c = true) (hwf : blocksWf bs)
    (hds : startsWithDigit suffix = false) (hss : startsWithSepBlock suffix = false) :
    matchNumeralAt (lead ++ (renderBlocks bs ++ suffix)) =
      some (lead ++ renderBlocks bs) := by
  have hrest : startsWithDigit (renderBlocks bs ++ suffix) = false := by
    cases bs with
    | nil => simpa [renderBlocks] using hds
    | cons b bs2 =>
      have hsep := (hwf b (List.mem_cons_self b bs2)).1
      simp [renderBlocks, SepBlock.render, startsWithDigit, sep_not_digit hsep]
  have hgroups := takeGroups_blocks bs suffix hwf hss
  rcases lead with _ | ⟨a, _ | ⟨b2, _ | ⟨c2, _ | ⟨d4, t⟩⟩⟩⟩
  · exact absurd rfl hne
  · have ha := hdig a (by simp)
    simp [matchNumeralAt, ha, takeDigits_stop 2 _ hrest, hgroups]
  · have ha := hdig a (by simp)
    have hb2 := hdig b2 (by simp)
    simp [matchNumeralAt, takeDigitsUpTo, ha, hb2, takeDigits_stop 1 _ hrest, hgroups]
  · have ha := hdig a (by simp)
    have hb2 := hdig b2 (by simp)
    have hc2 := hdig c2 (by simp)
    simp [matchNumeralAt, takeDigitsUpTo, ha, hb2, hc2, hgroups]
  · simp at hlen

theorem findNumeralMatch_skip (p : List Char) (rest : List Char)
    (hp : ∀ c ∈ p, isDigitChar c = false) :
    findNumeralMatch (p ++ rest) = findNumeralMatch rest := by
  induction p with
  | nil => rfl
  | cons c t ih =>
    have hc := hp c (by simp)
    simp only [List.cons_append, findNumeralMatch, matchNumeralAt, hc,
      Bool.false_eq_true, if_false]
    exact ih (fun x hx => hp x (by simp [hx]))

theorem findNumeralMatch_none (cs : List Char) (h : ∀ c ∈ cs, isDigitChar c = false) :
    findNumeralMatch cs = none := by
  have h2 := findNumeralMatch_skip cs [] h
  simpa using h2

theorem filter_not_sep_blocks : ∀ (bs : List SepBlock), blocksWf bs →
    (renderBlocks bs).filter (fun c => !(isSepChar c)) = blocksDigits bs
  | [], _ => by simp [renderBlocks, blocksDigits]
  | b :: bs, hwf => by
    obtain ⟨hsep, h1, h2, h3⟩ := hwf b (List.mem_cons_self b bs)
    have ih := filter_not_sep_blocks bs (fun x hx => hwf x (List.mem_cons_of_mem b hx))
    simp [renderBlocks, SepBlock.render, blocksDigits, hsep, digit_not_sep h1,
      digit_not_sep h2, digit_not_sep h3, ih]

theorem filter_not_sep_grouped (lead : List Char) (bs : List SepBlock)
    (hdig : ∀ c ∈ lead, isDigitChar c = true) (hwf : blocksWf bs) :
    (lead ++ renderBlocks bs).filter (fun c => !(isSepChar c)) =
      lead ++ blocksDigits bs := by
  rw [List.filter_append]
  congr 1
  · rw [List.filter_eq_self]
    intro a ha
    simp [digit_not_sep (hdig a ha)]
  · exact filter_not_sep_blocks bs hwf

theorem normalize_keeps_no_digit {s : String} (h : ∀ c ∈ s.data, isDigitChar c = false) :
    ∀ c ∈ normalizeNbsp s.data, isDigitChar c = false := by
  intro c hc
  simp only [normalizeNbsp, List.mem_map] at hc
  obtain ⟨a, ha, rfl⟩ := hc
  by_cases h160 : a.toNat = 160
  · simp [h160, isDigitChar]
  · simpa [h160] using h a ha

/-- C9: for every string whose NBSP-normalized text decomposes as a
digit-free prefix, a locale-grouped numeral (1–3 leading digits followed by
groups of a `[.,\s]` separator and exactly three digits), and a suffix that
neither starts with a digit nor with another separator+3-digit group,
`extractNumberFromText` returns the integer obtained by stripping the
separators — e.g. 12453 for "12,453", "12.453" and "12 453" — provided that
integer is finite as a JS number, and `none` otherwise; and for every
string with no digit at all (no digit pattern matches), it returns
`none`. -/
theorem c9_groupedNumeralExtraction :
    (∀ (s : String) (p lead : List Char) (bs : List SepBlock) (suffix : List Char),
      normalizeNbsp s.data = p ++ (lead ++ (renderBlocks bs ++ suffix)) →
      (∀ c ∈ p, isDigitChar c = false) →
      lead ≠ [] → lead.length ≤ 3 → (∀ c ∈ lead, isDigitChar c = true) →
      blocksWf bs →
      startsWithDigit suffix = false → startsWithSepBlock suffix = false →
      extractNumberFromText s =
        (if jsNumberFinite (natOfDigits (lead ++ blocksDigits bs)) then
          some (natOfDigits (lead ++ blocksDigits bs))
        else none)) ∧
    (∀ s : String, (∀ c ∈ s.data, isDigitChar c = false) →
      extractNumberFromText s = none) := by
  constructor
  · intro s p lead bs suffix hdecomp hp hne hlen hdig hwf hds hss
    have hsne : s ≠ "" := by
      intro he
      subst he
      cases lead with
      | nil => exact hne rfl
      | cons a t => simp [normalizeNbsp] at hdecomp
    have hfind : findNumeralMatch (normalizeNbsp s.data) =
        some (lead ++ renderBlocks bs) := by
      rw [hdecomp, findNumeralMatch_skip p _ hp]
      cases lead with
      | nil => exact absurd rfl hne
      | cons a t =>
        have hmatch := matchNumeralAt_grouped (a :: t) bs suffix hne hlen hdig hwf hds hss
        simp only [List.cons_append, findNumeralMatch, List.append_eq] at hmatch ⊢
        rw [hmatch]
    unfold extractNumberFromText
    rw [if_neg hsne, hfind]
    simp only [filter_not_sep_grouped lead bs hdig hwf]
  · intro s h
    by_cases hse : s = ""
    · simp [extractNumberFromText, hse]
    · simp [extractNumberFromText, hse,
        findNumeralMatch_none _ (normalize_keeps_no_digit h)]

/-- Witness for C9: the spec's three grouped examples and a digit-free
string. -/
theorem c9_witness :
    extractNumberFromText "12,453" = some 12453 ∧
    extractNumberFromText "12.453" = some 12453 ∧
    extractNumberFromText "12 453" = some 12453 ∧
    extractNumberFromText "abc watching" = none := by
  obtain ⟨hg, hnd⟩ := c9_groupedNumeralExtraction
  refine ⟨?_, ?_, ?_, hnd _ (by decide)⟩
  · exact (hg "12,453" [] ['1', '2'] [⟨',', '4', '5', '3'⟩] [] (by decide) (by decide)
      (by decide) (by decide) (by decide) (by decide) (by decide) (by decide)).trans
      (by decide)
  · exact (hg "12.453" [] ['1', '2'] [⟨'.', '4', '5', '3'⟩] [] (by decide) (by decide)
      (by decide) (by decide) (by decide) (by decide) (by decide) (by decide)).trans
      (by decide)
  · exact (hg "12 453" [] ['1', '2'] [⟨' ', '4', '5', '3'⟩] [] (by decide) (by decide)
      (by decide) (by decide) (by decide) (by decide) (by decide) (by decide)).trans
      (by decide)
